import Mathlib

/-!
Verification of the GitHub issue-fetch pipeline of this repository.

The embedding translates the Python sources
`src/archive/fetch_gh_data/fetch_issues.py` (namespace `Archive`),
`src/src/fetch_gh_data_3/fetch_issues.py` (namespace `V3`) and
`src/src/fetch_gh_data/helper.py` (namespace `HelperMod`) into Lean.

Raw API items are Python dictionaries with JSON values; they are embedded
as association lists over an inductive JSON value type.  Python `dict.get`,
subscript access, truthiness and `dict` mutation are embedded as explicit
total or `Except`-valued functions.  HTTP fetches (which Prefect wraps in
retry logic) are abstracted as oracles: a function from page number to the
page's final outcome (the response, or the error left after retries are
exhausted), and per-issue oracles for the comments and timeline endpoints.
-/

namespace GhFetch

/-- Values of the JSON documents returned by the GitHub API, as manipulated
by the Python code: `None`, booleans, integers, strings, arrays, objects. -/
inductive JVal where
  | jnull
  | jbool (b : Bool)
  | jint (n : Int)
  | jstr (s : String)
  | jarr (xs : List JVal)
  | jobj (fields : List (String × JVal))

/-- A Python dictionary with string keys and JSON values (a raw API item). -/
abbrev Dict := List (String × JVal)

/-- Python exceptions are abstracted by their message. -/
abbrev PyErr := String

mutual

/-- Decidable equality for `JVal` (structural, like Python `==` on parsed
JSON trees). -/
def decEqJVal : (a b : JVal) → Decidable (a = b)
  | .jnull, .jnull => isTrue rfl
  | .jbool x, .jbool y =>
      match decEq x y with
      | isTrue h => isTrue (by rw [h])
      | isFalse h => isFalse (fun hh => h (JVal.jbool.inj hh))
  | .jint x, .jint y =>
      match decEq x y with
      | isTrue h => isTrue (by rw [h])
      | isFalse h => isFalse (fun hh => h (JVal.jint.inj hh))
  | .jstr x, .jstr y =>
      match decEq x y with
      | isTrue h => isTrue (by rw [h])
      | isFalse h => isFalse (fun hh => h (JVal.jstr.inj hh))
  | .jarr xs, .jarr ys =>
      match decEqJValList xs ys with
      | isTrue h => isTrue (by rw [h])
      | isFalse h => isFalse (fun hh => h (JVal.jarr.inj hh))
  | .jobj fs, .jobj gs =>
      match decEqJFields fs gs with
      | isTrue h => isTrue (by rw [h])
      | isFalse h => isFalse (fun hh => h (JVal.jobj.inj hh))
  | .jnull, .jbool _ => isFalse (fun h => JVal.noConfusion h)
  | .jnull, .jint _ => isFalse (fun h => JVal.noConfusion h)
  | .jnull, .jstr _ => isFalse (fun h => JVal.noConfusion h)
  | .jnull, .jarr _ => isFalse (fun h => JVal.noConfusion h)
  | .jnull, .jobj _ => isFalse (fun h => JVal.noConfusion h)
  | .jbool _, .jnull => isFalse (fun h => JVal.noConfusion h)
  | .jbool _, .jint _ => isFalse (fun h => JVal.noConfusion h)
  | .jbool _, .jstr _ => isFalse (fun h => JVal.noConfusion h)
  | .jbool _, .jarr _ => isFalse (fun h => JVal.noConfusion h)
  | .jbool _, .jobj _ => isFalse (fun h => JVal.noConfusion h)
  | .jint _, .jnull => isFalse (fun h => JVal.noConfusion h)
  | .jint _, .jbool _ => isFalse (fun h => JVal.noConfusion h)
  | .jint _, .jstr _ => isFalse (fun h => JVal.noConfusion h)
  | .jint _, .jarr _ => isFalse (fun h => JVal.noConfusion h)
  | .jint _, .jobj _ => isFalse (fun h => JVal.noConfusion h)
  | .jstr _, .jnull => isFalse (fun h => JVal.noConfusion h)
  | .jstr _, .jbool _ => isFalse (fun h => JVal.noConfusion h)
  | .jstr _, .jint _ => isFalse (fun h => JVal.noConfusion h)
  | .jstr _, .jarr _ => isFalse (fun h => JVal.noConfusion h)
  | .jstr _, .jobj _ => isFalse (fun h => JVal.noConfusion h)
  | .jarr _, .jnull => isFalse (fun h => JVal.noConfusion h)
  | .jarr _, .jbool _ => isFalse (fun h => JVal.noConfusion h)
  | .jarr _, .jint _ => isFalse (fun h => JVal.noConfusion h)
  | .jarr _, .jstr _ => isFalse (fun h => JVal.noConfusion h)
  | .jarr _, .jobj _ => isFalse (fun h => JVal.noConfusion h)
  | .jobj _, .jnull => isFalse (fun h => JVal.noConfusion h)
  | .jobj _, .jbool _ => isFalse (fun h => JVal.noConfusion h)
  | .jobj _, .jint _ => isFalse (fun h => JVal.noConfusion h)
  | .jobj _, .jstr _ => isFalse (fun h => JVal.noConfusion h)
  | .jobj _, .jarr _ => isFalse (fun h => JVal.noConfusion h)

/-- Decidable equality for lists of `JVal`. -/
def decEqJValList : (xs ys : List JVal) → Decidable (xs = ys)
  | [], [] => isTrue rfl
  | [], _ :: _ => isFalse (fun h => List.noConfusion h)
  | _ :: _, [] => isFalse (fun h => List.noConfusion h)
  | x :: xs, y :: ys =>
      match decEqJVal x y with
      | isFalse h1 => isFalse (fun hh => h1 (List.cons.inj hh).1)
      | isTrue h1 =>
        match decEqJValList xs ys with
        | isTrue h2 => isTrue (by rw [h1, h2])
        | isFalse h2 => isFalse (fun hh => h2 (List.cons.inj hh).2)

/-- Decidable equality for object field lists. -/
def decEqJFields : (fs gs : List (String × JVal)) → Decidable (fs = gs)
  | [], [] => isTrue rfl
  | [], _ :: _ => isFalse (fun h => List.noConfusion h)
  | _ :: _, [] => isFalse (fun h => List.noConfusion h)
  | (k1, v1) :: fs, (k2, v2) :: gs =>
      match decEq k1 k2 with
      | isFalse h0 =>
          isFalse (fun hh => h0 (congrArg Prod.fst ((List.cons.inj hh).1)))
      | isTrue h0 =>
        match decEqJVal v1 v2 with
        | isFalse h1 =>
            isFalse (fun hh => h1 (congrArg Prod.snd ((List.cons.inj hh).1)))
        | isTrue h1 =>
          match decEqJFields fs gs with
          | isTrue h2 => isTrue (by rw [h0, h1, h2])
          | isFalse h2 => isFalse (fun hh => h2 (List.cons.inj hh).2)

end

instance : DecidableEq JVal := decEqJVal

/-- Python truthiness of JSON values: `None`, `False`, `0`, `""`, `[]` and
`\x7b\x7d` are falsy, everything else truthy. -/
def JVal.truthy : JVal → Bool
  | .jnull => false
  | .jbool b => b
  | .jint n => decide (n ≠ 0)
  | .jstr s => decide (s ≠ "")
  | .jarr xs => !xs.isEmpty
  | .jobj fs => !fs.isEmpty

/-- Whether the value is a JSON object (a Python `dict`). -/
def JVal.isObj : JVal → Bool
  | .jobj _ => true
  | _ => false

/-- Embeds Python `d.get(k)`: the stored value if the key is present, else
`None`. -/
def dget (d : Dict) (k : String) : JVal :=
  match d.lookup k with
  | some v => v
  | none => .jnull

/-- Embeds Python `d.get(k, default)`: the stored value if the key is
present (even when that value is `None`), else the default. -/
def dgetD (d : Dict) (k : String) (dflt : JVal) : JVal :=
  match d.lookup k with
  | some v => v
  | none => dflt

/-- Embeds Python subscript access `d[k]` on a dictionary: raises
`KeyError` when the key is absent. -/
def dixGet (d : Dict) (k : String) : Except PyErr JVal :=
  match d.lookup k with
  | some v => .ok v
  | none => .error "KeyError"

/-- Embeds the Python membership test `k in d` on a dictionary. -/
def hasKey (d : Dict) (k : String) : Bool :=
  d.any (fun p => p.1 == k)

/-- Embeds the Python method call `v.get(k)` on a value that the code
assumes is a dictionary: on a non-dict (in particular `None`) it raises
`AttributeError`, exactly as CPython does. -/
def mget (v : JVal) (k : String) : Except PyErr JVal :=
  match v with
  | .jobj fs => .ok (dget fs k)
  | _ => .error "AttributeError"

/-- Embeds Python subscript access `v[k]` on a value assumed to be a
dictionary: `KeyError` when the key is absent, `TypeError` on a non-dict. -/
def pyIndex (v : JVal) (k : String) : Except PyErr JVal :=
  match v with
  | .jobj fs => dixGet fs k
  | _ => .error "TypeError"

/-- Embeds the Python dictionary update `d[k] = v`: overwrites in place if
the key exists, otherwise appends the new binding. -/
def dset : Dict → String → JVal → Dict
  | [], k, v => [(k, v)]
  | (k0, v0) :: rest, k, v =>
      if k0 = k then (k, v) :: rest else (k0, v0) :: dset rest k v

/-- A pandas DataFrame as the code distinguishes it: `pd.DataFrame()` (the
column-free empty frame built for empty input) versus a frame carrying the
record schema with its list of rows. -/
inductive Frame (ρ : Type) where
  | noColumns
  | table (rows : List ρ)
  deriving DecidableEq

/-- The rows carried by a frame (none for the column-free empty frame). -/
def Frame.rowsList {ρ : Type} : Frame ρ → List ρ
  | .noColumns => []
  | .table rows => rows

/-- Number of header lines `DataFrame.to_csv` emits for the frame: the
column-free empty frame has no columns, hence no header row; a frame with
the record schema writes exactly one header row. -/
def Frame.headerRows {ρ : Type} : Frame ρ → Nat
  | .noColumns => 0
  | .table _ => 1

/-- Whether a Python computation completed without raising. -/
def isOkB {α : Type} : Except PyErr α → Bool
  | .ok _ => true
  | .error _ => false

/-- Embeds the recurring guarded pattern
`d.get(k, \x7b\x7d).get(k2) if d.get(k) else dflt` of the normalizers: the
truthiness test guards the nested `.get`, which can still raise
`AttributeError` on a truthy non-dict value. -/
def guardedGet (d : Dict) (k k2 : String) (dflt : JVal) : Except PyErr JVal :=
  if (dget d k).truthy then mget (dgetD d k (.jobj [])) k2 else pure dflt

/-- Embeds the same guarded pattern with an inner default,
`d.get(k, \x7b\x7d).get(k2, dflt) if d.get(k) else dflt`. -/
def guardedGetD (d : Dict) (k k2 : String) (dflt : JVal) : Except PyErr JVal :=
  if (dget d k).truthy then
    match dgetD d k (.jobj []) with
    | .jobj fs => pure (dgetD fs k2 dflt)
    | _ => .error "AttributeError"
  else pure dflt

/-- Sequentially builds the per-record rows of a DataFrame, stopping with
the first record whose conversion raises (a Python `for` loop appending to
`rows`). -/
def buildRows {ρ : Type} (f : Dict → Except PyErr ρ) : List Dict → Except PyErr (List ρ)
  | [] => .ok []
  | c :: rest => do
      let r ← f c
      let rs ← buildRows f rest
      .ok (r :: rs)

namespace Archive

/-!
Embedding of `src/archive/fetch_gh_data/fetch_issues.py`.
-/

/-- One row of the issues DataFrame built by `issues_to_dataframe`. -/
structure IssueRow where
  issue_number : JVal
  title : JVal
  state : JVal
  state_reason : JVal
  body : JVal
  created_at : JVal
  updated_at : JVal
  closed_at : JVal
  n_comments : JVal
  labels : JVal
  user : JVal
  assignee : JVal
  author_association : JVal
  closed_by : JVal
  reactions : JVal
  timeline_url : JVal
  sub_issues_total : JVal
  sub_issues_completed : JVal
  sub_issues_percent_completed : JVal
  url : JVal
  deriving DecidableEq

/-- Embeds the row dictionary built for one issue inside
`issues_to_dataframe` (lines 48-91).  Each field mirrors the corresponding
`i.get(...)` expression; the conversion raises (AttributeError) exactly
where the Python expression would, e.g. on `i.get("user", \x7b\x7d).get("login")`
when the item stores `"user": null`. -/
def issueRowOf (i : Dict) : Except PyErr IssueRow := do
  let user ← mget (dgetD i "user" (.jobj [])) "login"
  let assignee ← guardedGet i "assignee" "login" .jnull
  let closed_by ← guardedGet i "closed_by" "login" .jnull
  let reactions ← guardedGet i "reactions" "total_count" (.jint 0)
  let sub_issues_total ← guardedGetD i "sub_issues_summary" "total_count" (.jint 0)
  let sub_issues_completed ← guardedGetD i "sub_issues_summary" "completed_count" (.jint 0)
  let sub_issues_percent_completed ←
    guardedGetD i "sub_issues_summary" "percent_complete" (.jint 0)
  .ok
    { issue_number := dget i "number"
      title := dget i "title"
      state := dget i "state"
      state_reason := dget i "state_reason"
      body := dget i "body"
      created_at := dget i "created_at"
      updated_at := dget i "updated_at"
      closed_at := dget i "closed_at"
      n_comments := dget i "comments"
      labels := dget i "labels"
      user := user
      assignee := assignee
      author_association := dget i "author_association"
      closed_by := closed_by
      reactions := reactions
      timeline_url := dget i "timeline_url"
      sub_issues_total := sub_issues_total
      sub_issues_completed := sub_issues_completed
      sub_issues_percent_completed := sub_issues_percent_completed
      url := dget i "html_url" }

/-- Embeds `issues_to_dataframe` (lines 44-92): `pd.DataFrame()` on empty
input, otherwise one row per raw item. -/
def issues_to_dataframe (issues : List Dict) : Except PyErr (Frame IssueRow) :=
  if issues.isEmpty then .ok .noColumns
  else do
    let rows ← buildRows issueRowOf issues
    .ok (.table rows)

/-- One row of the comments DataFrame built by `comments_to_dataframe`. -/
structure CommentRow where
  comment_id : JVal
  issue_number : JVal
  user : JVal
  created_at : JVal
  updated_at : JVal
  author_association : JVal
  body : JVal
  reactions : JVal
  node_id : JVal
  issue_url : JVal
  performed_via_github_app : JVal
  url : JVal
  deriving DecidableEq

/-- Embeds the row dictionary built for one comment inside
`comments_to_dataframe` (lines 99-116). -/
def commentRowOf (c : Dict) : Except PyErr CommentRow := do
  let user ← mget (dgetD c "user" (.jobj [])) "login"
  let reactions ← guardedGet c "reactions" "total_count" (.jint 0)
  .ok
    { comment_id := dget c "id"
      issue_number := dget c "issue_number"
      user := user
      created_at := dget c "created_at"
      updated_at := dget c "updated_at"
      author_association := dget c "author_association"
      body := dget c "body"
      reactions := reactions
      node_id := dget c "node_id"
      issue_url := dget c "issue_url"
      performed_via_github_app := dget c "performed_via_github_app"
      url := dget c "html_url" }

/-- Embeds `comments_to_dataframe` (lines 95-118). -/
def comments_to_dataframe (comments : List Dict) : Except PyErr (Frame CommentRow) :=
  if comments.isEmpty then .ok .noColumns
  else do
    let rows ← buildRows commentRowOf comments
    .ok (.table rows)

/-- One row of the timeline DataFrame built by `timeline_to_dataframe`. -/
structure TimelineRow where
  event_id : JVal
  node_id : JVal
  issue_number : JVal
  event : JVal
  created_at : JVal
  actor : JVal
  commit_id : JVal
  commit_url : JVal
  label : JVal
  performed_via_github_app : JVal
  pull_number : JVal
  pull_url : JVal
  source_type : JVal
  url : JVal
  deriving DecidableEq

/-- Embeds the row dictionary built for one timeline event inside
`timeline_to_dataframe` (lines 127-151). -/
def timelineRowOf (e : Dict) : Except PyErr TimelineRow := do
  let actor ← guardedGet e "actor" "login" .jnull
  let label ← guardedGet e "label" "name" .jnull
  let pull_number ← guardedGet e "pull_request" "number" .jnull
  let pull_url ← guardedGet e "pull_request" "url" .jnull
  let source_type ← guardedGet e "source" "type" .jnull
  .ok
    { event_id := dget e "id"
      node_id := dget e "node_id"
      issue_number := dget e "issue_number"
      event := dget e "event"
      created_at := dget e "created_at"
      actor := actor
      commit_id := dget e "commit_id"
      commit_url := dget e "commit_url"
      label := label
      performed_via_github_app := dget e "performed_via_github_app"
      pull_number := pull_number
      pull_url := pull_url
      source_type := source_type
      url := dget e "url" }

/-- Embeds `timeline_to_dataframe` (lines 121-152). -/
def timeline_to_dataframe (events : List Dict) : Except PyErr (Frame TimelineRow) :=
  if events.isEmpty then .ok .noColumns
  else do
    let rows ← buildRows timelineRowOf events
    .ok (.table rows)

/-- Embeds the page loop of `fetch_many_issues` (lines 178-190).  `pages`
maps a page number to the outcome of `fetch_issue_page` for that page
after its retries (the parsed body, or the exception that finally
propagated).  Alongside the accumulated item list the loop carries, as
instrumentation for stating the pagination properties, the number of page
requests issued so far; the Python loop returns only the list. -/
def issuesLoop (pages : Nat → Except PyErr (List Dict)) (perPage limit : Nat) :
    (pageList : List Nat) → (collected : List Dict) → (fetched : Nat) →
    Except PyErr (List Dict × Nat)
  | [], collected, fetched => .ok (collected, fetched)
  | page :: rest, collected, fetched =>
    if limit ≤ collected.length then .ok (collected, fetched)
    else do
      let batchRaw ← pages page
      if batchRaw.isEmpty then .ok (collected, fetched + 1)
      else
        let batch := batchRaw.filter (fun i => !(hasKey i "pull_request"))
        let collected2 := collected ++ batch
        if batch.length < perPage then .ok (collected2, fetched + 1)
        else issuesLoop pages perPage limit rest collected2 (fetched + 1)

/-- Embeds `fetch_many_issues` (lines 160-192): page size
`min(limit, 100)`, loop over pages `range(1, max_pages + 1)`, final
truncation `collected[:limit]`.  Second component: number of page requests
issued. -/
def fetch_many_issues (pages : Nat → Except PyErr (List Dict))
    (limit : Nat := 30) (maxPages : Nat := 20) : Except PyErr (List Dict × Nat) := do
  let (collected, fetched) ← issuesLoop pages (min limit 100) limit (List.range' 1 maxPages) [] 0
  .ok (collected.take limit, fetched)

/-- Embeds the request-target expression
`issue.get("comments_url") or f"..."` (line 216): when `comments_url` is
falsy the fallback f-string subscripts `issue["url"]`, which raises
`KeyError` when that key is absent.  The URL string itself is irrelevant to
the embedding because per-issue fetches are abstracted as an oracle keyed
by the issue. -/
def commentsTarget (issue : Dict) : Except PyErr Unit :=
  if (dget issue "comments_url").truthy then .ok ()
  else do
    let _ ← dixGet issue "url"
    .ok ()

/-- Embeds the analogous target expression for timelines (line 254). -/
def timelineTarget (issue : Dict) : Except PyErr Unit :=
  if (dget issue "timeline_url").truthy then .ok ()
  else do
    let _ ← dixGet issue "url"
    .ok ()

/-- Embeds the submission loop of `fetch_many_comments_for_issues`
(lines 214-218): builds the `futures` list of pairs
`(issue["number"], future)`.  The per-issue fetch oracle stands for the
eventual `fut.result()` of the submitted task. -/
def submitComments (fetch : Dict → Except PyErr (List Dict)) :
    List Dict → Except PyErr (List (JVal × Except PyErr (List Dict)))
  | [] => .ok []
  | issue :: rest => do
      let _ ← commentsTarget issue
      let num ← dixGet issue "number"
      let tail ← submitComments fetch rest
      .ok ((num, fetch issue) :: tail)

/-- Embeds the submission loop of `fetch_many_timelines_for_issues`
(lines 252-256). -/
def submitTimelines (fetch : Dict → Except PyErr (List Dict)) :
    List Dict → Except PyErr (List (JVal × Except PyErr (List Dict)))
  | [] => .ok []
  | issue :: rest => do
      let _ ← timelineTarget issue
      let num ← dixGet issue "number"
      let tail ← submitTimelines fetch rest
      .ok ((num, fetch issue) :: tail)

/-- Embeds the collection loop over futures shared by both fan-out flows
(lines 220-227 and 258-265): a successful result's records are each tagged
with `rec["issue_number"] = num` and appended; a failed result is logged
and skipped. -/
def mergeTagged : List (JVal × Except PyErr (List Dict)) → List Dict
  | [] => []
  | (num, .ok recs) :: rest =>
      recs.map (fun r => dset r "issue_number" num) ++ mergeTagged rest
  | (_, .error _) :: rest => mergeTagged rest

/-- Embeds `fetch_many_comments_for_issues` (lines 199-231). -/
def fetch_many_comments_for_issues (fetch : Dict → Except PyErr (List Dict))
    (issues : List Dict) : Except PyErr (Frame CommentRow) :=
  if issues.isEmpty then .ok .noColumns
  else do
    let futures ← submitComments fetch issues
    comments_to_dataframe (mergeTagged futures)

/-- Embeds `fetch_many_timelines_for_issues` (lines 239-269). -/
def fetch_many_timelines_for_issues (fetch : Dict → Except PyErr (List Dict))
    (issues : List Dict) : Except PyErr (Frame TimelineRow) :=
  if issues.isEmpty then .ok .noColumns
  else do
    let futures ← submitTimelines fetch issues
    timeline_to_dataframe (mergeTagged futures)

/-- Embeds Python `s.replace(old, new)` for single-character pattern and
replacement, which is exactly a character map. -/
def replaceChar (s : List Char) (old new : Char) : List Char :=
  s.map (fun c => if c = old then new else c)

/-- Embeds the sanitization on line 303:
`repository.replace("/", "_").replace("-", "_").replace(".", "_")`. -/
def repoSafe (repository : String) : String :=
  ⟨replaceChar (replaceChar (replaceChar repository.data '/' '_') '-' '_') '.' '_'⟩

/-- One `to_csv` call of the orchestration flow: target file name plus the
frame written there in full. -/
inductive FileWrite where
  | issuesCsv (name : String) (df : Frame IssueRow)
  | commentsCsv (name : String) (df : Frame CommentRow)
  | timelineCsv (name : String) (df : Frame TimelineRow)
  deriving DecidableEq

/-- The three DataFrames returned by the orchestration flow, together with
the CSV writes it performed. -/
structure PipelineResult where
  issues_df : Frame IssueRow
  comments_df : Frame CommentRow
  timeline_df : Frame TimelineRow
  writes : List FileWrite
  deriving DecidableEq

/-- The fixed remote mapping from requests to final outcomes: the page
listing endpoint by page number, and the per-issue comments and timeline
endpoints keyed by the issue they belong to.  Each outcome is the response
body, or the error surfacing after the task's retries are exhausted. -/
structure Backend where
  pages : Nat → Except PyErr (List Dict)
  comments : Dict → Except PyErr (List Dict)
  timeline : Dict → Except PyErr (List Dict)

/-- Embeds the orchestration flow `fetch_closed_gh_issues`
(lines 276-318): pagination, issue normalization, the two fan-outs, then
the three CSV writes of the fully assembled frames under the sanitized
repository name.  Logging and the `show_urls` printing are omitted as pure
output. -/
def fetch_closed_gh_issues (b : Backend) (repository : String)
    (limit : Nat := 100) (maxPages : Nat := 20) : Except PyErr PipelineResult := do
  let (issues, _pagesFetched) ← fetch_many_issues b.pages limit maxPages
  let issues_df ← issues_to_dataframe issues
  let comments_df ← fetch_many_comments_for_issues b.comments issues
  let timeline_df ← fetch_many_timelines_for_issues b.timeline issues
  let base := repoSafe repository
  .ok
    { issues_df := issues_df
      comments_df := comments_df
      timeline_df := timeline_df
      writes :=
        [.issuesCsv (base ++ "_issues.csv") issues_df,
         .commentsCsv (base ++ "_issue_comments.csv") comments_df,
         .timelineCsv (base ++ "_issue_timeline.csv") timeline_df] }

end Archive

namespace V3

/-!
Embedding of `src/src/fetch_gh_data_3/fetch_issues.py`.
-/

/-- Embeds the page loop of `fetch_issues` (lines 59-92): the pagination
check uses `original_count`, the number of items the page returned before
the optional pull-request filter.  Second component of the state: number
of page requests issued (instrumentation; the Python loop returns only the
list). -/
def v3Loop (pages : Nat → Except PyErr (List Dict)) (perPage limit : Nat)
    (excludePulls : Bool) : (pageList : List Nat) → (acc : List Dict) →
    (fetched : Nat) → Except PyErr (List Dict × Nat)
  | [], acc, fetched => .ok (acc, fetched)
  | page :: rest, acc, fetched =>
    if limit ≤ acc.length then .ok (acc, fetched)
    else do
      let raw ← pages page
      if raw.isEmpty then .ok (acc, fetched + 1)
      else
        let originalCount := raw.length
        let pageIssues :=
          if excludePulls then raw.filter (fun i => !(hasKey i "pull_request")) else raw
        let acc2 := acc ++ pageIssues
        if originalCount < perPage then .ok (acc2, fetched + 1)
        else v3Loop pages perPage limit excludePulls rest acc2 (fetched + 1)

/-- Embeds `fetch_issues` (lines 24-95): page size `min(limit, 100)`, loop
over pages `range(1, max_pages + 1)`, optional PR filter controlled by
`exclude_pulls` (default `False`), final truncation `all_issues[:limit]`.
The page-level `try/except` re-raises, so page errors propagate
unchanged. -/
def fetch_issues (pages : Nat → Except PyErr (List Dict)) (limit : Nat := 30)
    (excludePulls : Bool := false) (maxPages : Nat := 20) :
    Except PyErr (List Dict × Nat) := do
  let (acc, fetched) ← v3Loop pages (min limit 100) limit excludePulls (List.range' 1 maxPages) [] 0
  .ok (acc.take limit, fetched)

/-- One row of the issues DataFrame built by this module's
`issues_to_dataframe` (lines 112-126). -/
structure IssueRow where
  number : JVal
  title : JVal
  state : JVal
  created_at : JVal
  updated_at : JVal
  comments : JVal
  user : JVal
  url : JVal
  deriving DecidableEq

/-- Embeds the row dictionary of this module's `issues_to_dataframe`: all
fields use subscript access (`KeyError` when absent), and
`issue["user"]["login"] if issue["user"] else None`. -/
def issueRowOf (i : Dict) : Except PyErr IssueRow := do
  let number ← dixGet i "number"
  let title ← dixGet i "title"
  let state ← dixGet i "state"
  let created_at ← dixGet i "created_at"
  let updated_at ← dixGet i "updated_at"
  let comments ← dixGet i "comments"
  let userv ← dixGet i "user"
  let user ← if userv.truthy then pyIndex userv "login" else pure .jnull
  let url ← dixGet i "html_url"
  .ok
    { number := number
      title := title
      state := state
      created_at := created_at
      updated_at := updated_at
      comments := comments
      user := user
      url := url }

/-- Embeds this module's `issues_to_dataframe` (lines 98-128). -/
def issues_to_dataframe (issues : List Dict) : Except PyErr (Frame IssueRow) :=
  if issues.isEmpty then .ok .noColumns
  else do
    let rows ← buildRows issueRowOf issues
    .ok (.table rows)

/-- Embeds the flow `fetch_gh_issues` (lines 153-194): calls
`fetch_issues` then `convert_and_process` inside a `try` whose `except`
catches every exception and returns `pd.DataFrame()` instead of
re-raising.  Printing is omitted as pure output. -/
def fetch_gh_issues (pages : Nat → Except PyErr (List Dict)) (limit : Nat := 100)
    (excludePulls : Bool := true) (maxPages : Nat := 20) : Frame IssueRow :=
  match (do
      let (iss, _n) ← fetch_issues pages limit excludePulls maxPages
      issues_to_dataframe iss : Except PyErr (Frame IssueRow)) with
  | .ok df => df
  | .error _ => .noColumns

end V3

namespace HelperMod

/-!
Embedding of `issues_to_dataframe` from `src/src/fetch_gh_data/helper.py`
(lines 19-107), the variant that guards `user` and `assignee` with
`isinstance(..., dict)` checks.
-/

/-- One row of the issues DataFrame built by the helper-module
`issues_to_dataframe`. -/
structure IssueRow where
  number : JVal
  title : JVal
  state : JVal
  state_reason : JVal
  created_at : JVal
  updated_at : JVal
  closed_at : JVal
  comments : JVal
  labels : JVal
  user : JVal
  assignee : JVal
  author_association : JVal
  body : JVal
  closed_by : JVal
  reactions : JVal
  timeline_url : JVal
  sub_issues_total : JVal
  sub_issues_completed : JVal
  sub_issues_percent_completed : JVal
  url : JVal
  deriving DecidableEq

/-- Embeds the list comprehension
`[label.get("name") for label in ...]`: each element must be a dict. -/
def labelNames : List JVal → Except PyErr (List JVal)
  | [] => .ok []
  | l :: rest => do
      let n ← mget l "name"
      let ns ← labelNames rest
      .ok (n :: ns)

/-- Embeds the labels expression
`[label.get("name") for label in issue.get("labels", [])] if
issue.get("labels") else []`: a truthy non-list raises `TypeError` when
iterated. -/
def labelsField (i : Dict) : Except PyErr JVal :=
  if (dget i "labels").truthy then
    match dgetD i "labels" (.jarr []) with
    | .jarr xs => do
        let ns ← labelNames xs
        pure (JVal.jarr ns)
    | _ => .error "TypeError"
  else pure (.jarr [])

/-- Embeds the row dictionary built for one issue by the helper-module
normalizer.  `user` and `assignee` are total thanks to the `isinstance`
guards; `labels` iterates the stored list when truthy; the remaining
guarded fields mirror the archive variant but default to `None`. -/
def issueRowOf (i : Dict) : Except PyErr IssueRow := do
  let labels ← labelsField i
  let user :=
    match i.lookup "user" with
    | some (.jobj fs) => dget fs "login"
    | _ => JVal.jnull
  let assignee :=
    match i.lookup "assignee" with
    | some (.jobj fs) => dget fs "login"
    | _ => JVal.jnull
  let closed_by ← guardedGet i "closed_by" "login" .jnull
  let reactions ← guardedGet i "reactions" "total_count" .jnull
  let sub_issues_total ← guardedGet i "sub_issues_summary" "total" .jnull
  let sub_issues_completed ← guardedGet i "sub_issues_summary" "completed" .jnull
  let sub_issues_percent_completed ←
    guardedGet i "sub_issues_summary" "percent_completed" .jnull
  .ok
    { number := dget i "number"
      title := dget i "title"
      state := dget i "state"
      state_reason := dget i "state_reason"
      created_at := dget i "created_at"
      updated_at := dget i "updated_at"
      closed_at := dget i "closed_at"
      comments := dget i "comments"
      labels := labels
      user := user
      assignee := assignee
      author_association := dget i "author_association"
      body := dget i "body"
      closed_by := closed_by
      reactions := reactions
      timeline_url := dget i "timeline_url"
      sub_issues_total := sub_issues_total
      sub_issues_completed := sub_issues_completed
      sub_issues_percent_completed := sub_issues_percent_completed
      url := dget i "html_url" }

/-- Embeds the helper-module `issues_to_dataframe`. -/
def issues_to_dataframe (issues : List Dict) : Except PyErr (Frame IssueRow) :=
  if issues.isEmpty then .ok .noColumns
  else do
    let rows ← buildRows issueRowOf issues
    .ok (.table rows)

end HelperMod

/-- Modelled from the spec (§4.5), for comparison with the code's
`repoSafe`: sanitize the repository identifier by replacing path
separators, hyphens, and dots with a single separator character. -/
def specSanitize (repository : String) : String :=
  ⟨repository.data.map (fun c => if c = '/' ∨ c = '-' ∨ c = '.' then '_' else c)⟩

/-- A truthiness-guarded optional field is harmless when it is absent,
null, otherwise falsy, or an object: then the `x if d.get(k) else dflt`
pattern cannot raise. -/
def guardedObj (d : Dict) (k : String) : Bool :=
  !(dget d k).truthy || (dget d k).isObj

/-- The unguarded `d.get(k, \x7b\x7d).get("...")` pattern is safe exactly when
the field is absent or stores an object. -/
def userSafe (d : Dict) (k : String) : Bool :=
  match d.lookup k with
  | none => true
  | some v => v.isObj

/-- Sufficient condition for `Archive.issueRowOf` not to raise. -/
def archiveIssueSafe (i : Dict) : Bool :=
  userSafe i "user" && guardedObj i "assignee" && guardedObj i "closed_by" &&
    guardedObj i "reactions" && guardedObj i "sub_issues_summary"

/-- Sufficient condition for `Archive.commentRowOf` not to raise. -/
def archiveCommentSafe (c : Dict) : Bool :=
  userSafe c "user" && guardedObj c "reactions"

/-- Sufficient condition for `Archive.timelineRowOf` not to raise. -/
def archiveEventSafe (e : Dict) : Bool :=
  guardedObj e "actor" && guardedObj e "label" && guardedObj e "pull_request" &&
    guardedObj e "source"

/-- Sufficient condition for `HelperMod.issueRowOf` not to raise; note
that `user` and `assignee` are unconstrained there (null is tolerated). -/
def helperIssueSafe (i : Dict) : Bool :=
  (!(dget i "labels").truthy ||
      (match i.lookup "labels" with
       | some (.jarr xs) => xs.all JVal.isObj
       | _ => false)) &&
    guardedObj i "closed_by" && guardedObj i "reactions" &&
    guardedObj i "sub_issues_summary"

/-- Condition under which the fan-out submission loops cannot raise for an
issue: `issue["number"]` exists and the request-target expression finds a
URL. -/
def fanoutReady (i : Dict) : Bool :=
  hasKey i "number" &&
    ((dget i "comments_url").truthy || hasKey i "url") &&
    ((dget i "timeline_url").truthy || hasKey i "url")

/-!
Concrete fixtures used by the witnesses and counterexamples.
-/

def issueA : Dict :=
  [("number", .jint 42), ("url", .jstr "uA"), ("user", .jobj [("login", .jstr "alice")])]

def issueB : Dict := [("number", .jint 43), ("url", .jstr "uB")]

def commentB : Dict := [("id", .jint 7), ("user", .jobj [("login", .jstr "bob")])]

def eventB : Dict := [("id", .jint 9)]

def demoPages : Nat → Except PyErr (List Dict) := fun p =>
  if p = 1 then .ok [issueA, issueB] else .ok []

def demoBackend : Archive.Backend where
  pages := demoPages
  comments := fun i => match dget i "number" with
    | .jint 43 => .ok [commentB]
    | _ => .ok []
  timeline := fun i => match dget i "number" with
    | .jint 43 => .ok [eventB]
    | _ => .ok []

/-- The all-success pipeline output over `demoBackend` (the match is
defensive; the run succeeds). -/
def demoOut : Archive.PipelineResult :=
  match Archive.fetch_closed_gh_issues demoBackend "a/b" 5 2 with
  | .ok o => o
  | .error _ => ⟨.noColumns, .noColumns, .noColumns, []⟩

/-- Same backend as `demoBackend` except that the comments endpoint of
`issueA` fails after exhausting retries. -/
def demoBackendFail : Archive.Backend where
  pages := demoPages
  comments := fun i =>
    if i = issueA then .error "HTTP 500" else demoBackend.comments i
  timeline := demoBackend.timeline

/-- Scenario items for the pagination-halt scenario: three plain non-PR
issues. -/
def scenItem (n : Int) : Dict := [("number", .jint n)]

/-- A backend whose page 1 returns three items and whose page 2 would
fail: it is an error for anything past page 1 to be requested. -/
def scenarioPages : Nat → Except PyErr (List Dict) := fun p =>
  if p = 1 then .ok [scenItem 1, scenItem 2, scenItem 3]
  else .error "page past the first requested"

/-- An item flagged as a pull request by the listing endpoint. -/
def prItem : Dict :=
  [("number", .jint 1), ("pull_request", .jobj [("url", .jstr "pr-url")])]

/-- A single page holding only the pull-request item. -/
def prPages : Nat → Except PyErr (List Dict) := fun p =>
  if p = 1 then .ok [prItem] else .ok []

/-- A listing endpoint that fails on every page (retries exhausted). -/
def failPages : Nat → Except PyErr (List Dict) := fun _ => .error "HTTPError"

/-- A backend whose page listing fails on every page. -/
def failBackend : Archive.Backend where
  pages := failPages
  comments := fun _ => .ok []
  timeline := fun _ => .ok []

/-- A per-item fetch that fails for every item (retries exhausted). -/
def fetchFail : Dict → Except PyErr (List Dict) := fun _ => .error "boom"

/-- A full page of 100 plain non-PR items: with `limit = 150` the page
size is 100, so after this page the loop continues to page 2. -/
def fullPage : List Dict :=
  (List.range' 1 100).map (fun j => [("number", JVal.jint (Int.ofNat j))])

/-- A listing endpoint whose first page is full and whose second page
fails after exhausting retries: the run gathers 100 items and then hits a
pagination failure. -/
def lateFailPages : Nat → Except PyErr (List Dict) := fun p =>
  if p = 1 then .ok fullPage else .error "HTTPError"

/-- A backend built on `lateFailPages`. -/
def lateFailBackend : Archive.Backend where
  pages := lateFailPages
  comments := fun _ => .ok []
  timeline := fun _ => .ok []

/-!
General lemmas about the dictionary operations and row builders.
-/

theorem dget_dset_self (d : Dict) (k : String) (v : JVal) :
    dget (dset d k v) k = v := by
  induction d with
  | nil => simp [dset, dget, List.lookup]
  | cons p rest ih =>
    obtain ⟨k0, v0⟩ := p
    by_cases h : k0 = k
    · subst h
      simp [dset, dget, List.lookup]
    · have hbeq : (k == k0) = false := by
        simp [beq_eq_false_iff_ne]
        exact fun hh => h hh.symm
      simp only [dset, if_neg h]
      simpa [dget, List.lookup, hbeq] using ih

theorem dixGet_ok_eq {d : Dict} {k : String} {v : JVal}
    (h : dixGet d k = .ok v) : dget d k = v := by
  unfold dixGet at h
  unfold dget
  cases hl : d.lookup k with
  | none => rw [hl] at h; cases h
  | some w => rw [hl] at h; cases h; rfl

theorem buildRows_length {ρ : Type} {f : Dict → Except PyErr ρ} :
    ∀ {l : List Dict} {rs : List ρ}, buildRows f l = .ok rs → rs.length = l.length := by
  intro l
  induction l with
  | nil => intro rs h; cases h; rfl
  | cons c rest ih =>
    intro rs h
    unfold buildRows at h
    cases hc : f c with
    | error e => rw [hc] at h; cases h
    | ok r =>
      rw [hc] at h
      cases ht : buildRows f rest with
      | error e => rw [ht] at h; cases h
      | ok rs0 =>
        rw [ht] at h
        cases h
        simp [ih ht]

theorem buildRows_mem {ρ : Type} {f : Dict → Except PyErr ρ} :
    ∀ {l : List Dict} {rs : List ρ}, buildRows f l = .ok rs →
      ∀ r ∈ rs, ∃ c ∈ l, f c = .ok r := by
  intro l
  induction l with
  | nil => intro rs h; cases h; intro r hr; cases hr
  | cons c rest ih =>
    intro rs h
    unfold buildRows at h
    cases hc : f c with
    | error e => rw [hc] at h; cases h
    | ok r0 =>
      rw [hc] at h
      cases ht : buildRows f rest with
      | error e => rw [ht] at h; cases h
      | ok rs0 =>
        rw [ht] at h
        cases h
        intro r hr
        rcases List.mem_cons.mp hr with h1 | h2
        · exact ⟨c, List.mem_cons_self _ _, h1 ▸ hc⟩
        · obtain ⟨c1, hc1, hfc1⟩ := ih ht r h2
          exact ⟨c1, List.mem_cons_of_mem _ hc1, hfc1⟩

theorem buildRows_mem_src {ρ : Type} {f : Dict → Except PyErr ρ} :
    ∀ {l : List Dict} {rs : List ρ}, buildRows f l = .ok rs →
      ∀ c ∈ l, ∃ r ∈ rs, f c = .ok r := by
  intro l
  induction l with
  | nil => intro rs h c hc; cases hc
  | cons c0 rest ih =>
    intro rs h
    unfold buildRows at h
    cases hc : f c0 with
    | error e => rw [hc] at h; cases h
    | ok r0 =>
      rw [hc] at h
      cases ht : buildRows f rest with
      | error e => rw [ht] at h; cases h
      | ok rs0 =>
        rw [ht] at h
        cases h
        intro c hcm
        rcases List.mem_cons.mp hcm with h1 | h2
        · exact ⟨r0, List.mem_cons_self _ _, h1 ▸ hc⟩
        · obtain ⟨r1, hr1, hfr1⟩ := ih ht c h2
          exact ⟨r1, List.mem_cons_of_mem _ hr1, hfr1⟩

theorem buildRows_map_eq {ρ σ : Type} {f : Dict → Except PyErr ρ}
    {g : ρ → σ} {h : Dict → σ}
    (hcomp : ∀ c r, f c = .ok r → g r = h c) :
    ∀ {l : List Dict} {rs : List ρ}, buildRows f l = .ok rs →
      rs.map g = l.map h := by
  intro l
  induction l with
  | nil => intro rs hb; cases hb; rfl
  | cons c rest ih =>
    intro rs hb
    unfold buildRows at hb
    cases hc : f c with
    | error e => rw [hc] at hb; cases hb
    | ok r0 =>
      rw [hc] at hb
      cases ht : buildRows f rest with
      | error e => rw [ht] at hb; cases hb
      | ok rs0 =>
        rw [ht] at hb
        cases hb
        simp [hcomp c r0 hc, ih ht]

theorem buildRows_isOk {ρ : Type} {f : Dict → Except PyErr ρ} :
    ∀ {l : List Dict}, (∀ c ∈ l, isOkB (f c) = true) →
      ∃ rs, buildRows f l = .ok rs := by
  intro l
  induction l with
  | nil => intro _; exact ⟨[], rfl⟩
  | cons c rest ih =>
    intro hall
    have hc := hall c (List.mem_cons_self _ _)
    cases hfc : f c with
    | error e => rw [hfc] at hc; cases hc
    | ok r =>
      obtain ⟨rs0, hrs0⟩ := ih (fun x hx => hall x (List.mem_cons_of_mem _ hx))
      refine ⟨r :: rs0, ?_⟩
      unfold buildRows
      rw [hfc, hrs0]
      rfl

theorem buildRows_filter {ρ : Type} {f : Dict → Except PyErr ρ}
    {p : Dict → Bool} {q : ρ → Bool}
    (hcompat : ∀ c r, f c = .ok r → p c = q r) :
    ∀ {l : List Dict} {rs : List ρ}, buildRows f l = .ok rs →
      buildRows f (l.filter p) = .ok (rs.filter q) := by
  intro l
  induction l with
  | nil => intro rs h; cases h; rfl
  | cons c rest ih =>
    intro rs h
    unfold buildRows at h
    cases hc : f c with
    | error e => rw [hc] at h; cases h
    | ok r0 =>
      rw [hc] at h
      cases ht : buildRows f rest with
      | error e => rw [ht] at h; cases h
      | ok rs0 =>
        rw [ht] at h
        cases h
        by_cases hp : p c = true
        · have hq : q r0 = true := (hcompat c r0 hc) ▸ hp
          simp only [List.filter_cons, hp, hq, if_pos]
          unfold buildRows
          rw [hc, ih ht]
          rfl
        · have hp' : p c = false := Bool.eq_false_iff.mpr hp
          have hq : q r0 = false := (hcompat c r0 hc) ▸ hp'
          simp only [List.filter_cons, hp', hq]
          exact ih ht

/-!
Lemmas about the fan-out stage.
-/

theorem hasKey_lookup {d : Dict} {k : String} (h : hasKey d k = true) :
    ∃ v, d.lookup k = some v := by
  induction d with
  | nil => cases h
  | cons p rest ih =>
    obtain ⟨k0, v0⟩ := p
    by_cases hk : k0 = k
    · subst hk
      exact ⟨v0, by simp [List.lookup]⟩
    · have hbeq : (k == k0) = false := by
        simp [beq_eq_false_iff_ne]
        exact fun hh => hk hh.symm
      have h' : hasKey rest k = true := by
        have := h
        unfold hasKey at this ⊢
        simpa [beq_iff_eq, hk] using this
      obtain ⟨v, hv⟩ := ih h'
      exact ⟨v, by simp [List.lookup, hbeq, hv]⟩

theorem hasKey_dixGet {d : Dict} {k : String} (h : hasKey d k = true) :
    dixGet d k = .ok (dget d k) := by
  obtain ⟨v, hv⟩ := hasKey_lookup h
  unfold dixGet dget
  rw [hv]

theorem commentsTarget_ok {i : Dict}
    (h : ((dget i "comments_url").truthy || hasKey i "url") = true) :
    Archive.commentsTarget i = .ok () := by
  unfold Archive.commentsTarget
  rcases Bool.or_eq_true_iff.mp h with h1 | h2
  · rw [if_pos h1]
  · by_cases h1 : (dget i "comments_url").truthy = true
    · rw [if_pos h1]
    · rw [if_neg h1, hasKey_dixGet h2]
      rfl

theorem timelineTarget_ok {i : Dict}
    (h : ((dget i "timeline_url").truthy || hasKey i "url") = true) :
    Archive.timelineTarget i = .ok () := by
  unfold Archive.timelineTarget
  rcases Bool.or_eq_true_iff.mp h with h1 | h2
  · rw [if_pos h1]
  · by_cases h1 : (dget i "timeline_url").truthy = true
    · rw [if_pos h1]
    · rw [if_neg h1, hasKey_dixGet h2]
      rfl

theorem submitComments_ok {fetch : Dict → Except PyErr (List Dict)} :
    ∀ {issues : List Dict} {futs}, Archive.submitComments fetch issues = .ok futs →
      futs = issues.map (fun i => (dget i "number", fetch i)) := by
  intro issues
  induction issues with
  | nil => intro futs h; cases h; rfl
  | cons i rest ih =>
    intro futs h
    unfold Archive.submitComments at h
    cases htg : Archive.commentsTarget i with
    | error e => rw [htg] at h; cases h
    | ok u =>
      rw [htg] at h
      cases hnum : dixGet i "number" with
      | error e => rw [hnum] at h; cases h
      | ok num =>
        rw [hnum] at h
        cases ht : Archive.submitComments fetch rest with
        | error e => rw [ht] at h; cases h
        | ok tail =>
          rw [ht] at h
          cases h
          simp [ih ht, dixGet_ok_eq hnum]

theorem submitTimelines_ok {fetch : Dict → Except PyErr (List Dict)} :
    ∀ {issues : List Dict} {futs}, Archive.submitTimelines fetch issues = .ok futs →
      futs = issues.map (fun i => (dget i "number", fetch i)) := by
  intro issues
  induction issues with
  | nil => intro futs h; cases h; rfl
  | cons i rest ih =>
    intro futs h
    unfold Archive.submitTimelines at h
    cases htg : Archive.timelineTarget i with
    | error e => rw [htg] at h; cases h
    | ok u =>
      rw [htg] at h
      cases hnum : dixGet i "number" with
      | error e => rw [hnum] at h; cases h
      | ok num =>
        rw [hnum] at h
        cases ht : Archive.submitTimelines fetch rest with
        | error e => rw [ht] at h; cases h
        | ok tail =>
          rw [ht] at h
          cases h
          simp [ih ht, dixGet_ok_eq hnum]

theorem submitComments_ready (fetch : Dict → Except PyErr (List Dict)) :
    ∀ {issues : List Dict}, (∀ i ∈ issues, fanoutReady i = true) →
      Archive.submitComments fetch issues =
        .ok (issues.map (fun i => (dget i "number", fetch i))) := by
  intro issues
  induction issues with
  | nil => intro _; rfl
  | cons i rest ih =>
    intro hready
    have hi := hready i (List.mem_cons_self _ _)
    unfold fanoutReady at hi
    have h1 : hasKey i "number" = true := by
      rcases Bool.and_eq_true_iff.mp hi with ⟨h0, _⟩
      exact (Bool.and_eq_true_iff.mp h0).1
    have h2 : ((dget i "comments_url").truthy || hasKey i "url") = true := by
      rcases Bool.and_eq_true_iff.mp hi with ⟨h0, _⟩
      exact (Bool.and_eq_true_iff.mp h0).2
    unfold Archive.submitComments
    rw [commentsTarget_ok h2, hasKey_dixGet h1,
      ih (fun x hx => hready x (List.mem_cons_of_mem _ hx))]
    rfl

theorem submitTimelines_ready (fetch : Dict → Except PyErr (List Dict)) :
    ∀ {issues : List Dict}, (∀ i ∈ issues, fanoutReady i = true) →
      Archive.submitTimelines fetch issues =
        .ok (issues.map (fun i => (dget i "number", fetch i))) := by
  intro issues
  induction issues with
  | nil => intro _; rfl
  | cons i rest ih =>
    intro hready
    have hi := hready i (List.mem_cons_self _ _)
    unfold fanoutReady at hi
    have h1 : hasKey i "number" = true := by
      rcases Bool.and_eq_true_iff.mp hi with ⟨h0, _⟩
      exact (Bool.and_eq_true_iff.mp h0).1
    have h2 : ((dget i "timeline_url").truthy || hasKey i "url") = true := by
      rcases Bool.and_eq_true_iff.mp hi with ⟨_, h3⟩
      exact h3
    unfold Archive.submitTimelines
    rw [timelineTarget_ok h2, hasKey_dixGet h1,
      ih (fun x hx => hready x (List.mem_cons_of_mem _ hx))]
    rfl

theorem mergeTagged_mem :
    ∀ {futs : List (JVal × Except PyErr (List Dict))} {c : Dict},
      c ∈ Archive.mergeTagged futs →
      ∃ nf ∈ futs, ∃ recs, nf.2 = .ok recs ∧
        ∃ r0 ∈ recs, c = dset r0 "issue_number" nf.1 := by
  intro futs
  induction futs with
  | nil => intro c hc; cases hc
  | cons nf rest ih =>
    intro c hc
    obtain ⟨num, res⟩ := nf
    cases res with
    | error e =>
      obtain ⟨nf1, hnf1, hrest⟩ := ih (by simpa [Archive.mergeTagged] using hc)
      exact ⟨nf1, List.mem_cons_of_mem _ hnf1, hrest⟩
    | ok recs =>
      rw [show Archive.mergeTagged ((num, Except.ok recs) :: rest) =
          recs.map (fun r => dset r "issue_number" num) ++ Archive.mergeTagged rest
        from rfl] at hc
      rcases List.mem_append.mp hc with h1 | h2
      · obtain ⟨r0, hr0, hr0e⟩ := List.mem_map.mp h1
        exact ⟨(num, Except.ok recs), List.mem_cons_self _ _, recs, rfl,
          r0, hr0, hr0e.symm⟩
      · obtain ⟨nf1, hnf1, hrest⟩ := ih h2
        exact ⟨nf1, List.mem_cons_of_mem _ hnf1, hrest⟩

/-!
Lemmas about the row converters.
-/

theorem issueRowOf_number {i : Dict} {r : Archive.IssueRow}
    (h : Archive.issueRowOf i = .ok r) : r.issue_number = dget i "number" := by
  unfold Archive.issueRowOf at h
  simp only [bind, Except.bind] at h
  repeat' split at h
  all_goals cases h
  all_goals rfl

theorem commentRowOf_number {c : Dict} {r : Archive.CommentRow}
    (h : Archive.commentRowOf c = .ok r) : r.issue_number = dget c "issue_number" := by
  unfold Archive.commentRowOf at h
  simp only [bind, Except.bind] at h
  repeat' split at h
  all_goals cases h
  all_goals rfl

theorem timelineRowOf_number {e : Dict} {r : Archive.TimelineRow}
    (h : Archive.timelineRowOf e = .ok r) : r.issue_number = dget e "issue_number" := by
  unfold Archive.timelineRowOf at h
  simp only [bind, Except.bind] at h
  repeat' split at h
  all_goals cases h
  all_goals rfl

theorem truthy_lookup {d : Dict} {k : String} (h : (dget d k).truthy = true) :
    d.lookup k = some (dget d k) := by
  cases hl : d.lookup k with
  | none =>
    unfold dget at h
    rw [hl] at h
    simp [JVal.truthy] at h
  | some v =>
    unfold dget
    rw [hl]

theorem userSafe_mget {d : Dict} {k : String} (k2 : String) (h : userSafe d k = true) :
    ∃ v, mget (dgetD d k (.jobj [])) k2 = .ok v := by
  unfold userSafe at h
  unfold dgetD
  cases hl : d.lookup k with
  | none => exact ⟨dget [] k2, rfl⟩
  | some v =>
    rw [hl] at h
    cases v with
    | jobj fs => exact ⟨dget fs k2, rfl⟩
    | jnull => simp [JVal.isObj] at h
    | jbool b => simp [JVal.isObj] at h
    | jint n => simp [JVal.isObj] at h
    | jstr s => simp [JVal.isObj] at h
    | jarr xs => simp [JVal.isObj] at h

theorem guarded_obj {d : Dict} {k : String} (hg : guardedObj d k = true)
    (ht : (dget d k).truthy = true) :
    ∃ fs, dgetD d k (.jobj []) = .jobj fs ∧ dget d k = .jobj fs := by
  have hobj : (dget d k).isObj = true := by
    unfold guardedObj at hg
    rw [ht] at hg
    simpa using hg
  have hl := truthy_lookup ht
  have hd : dgetD d k (.jobj []) = dget d k := by unfold dgetD; rw [hl]
  cases hv : dget d k with
  | jobj fs => exact ⟨fs, by rw [hd, hv], rfl⟩
  | jnull => rw [hv] at hobj; simp [JVal.isObj] at hobj
  | jbool b => rw [hv] at hobj; simp [JVal.isObj] at hobj
  | jint n => rw [hv] at hobj; simp [JVal.isObj] at hobj
  | jstr s => rw [hv] at hobj; simp [JVal.isObj] at hobj
  | jarr xs => rw [hv] at hobj; simp [JVal.isObj] at hobj

theorem guardedGet_ok {d : Dict} (k k2 : String) (dflt : JVal)
    (hg : guardedObj d k = true) : ∃ v, guardedGet d k k2 dflt = .ok v := by
  unfold guardedGet
  by_cases ht : (dget d k).truthy = true
  · obtain ⟨fs, hfs, _⟩ := guarded_obj hg ht
    rw [if_pos ht, hfs]
    exact ⟨dget fs k2, rfl⟩
  · rw [if_neg ht]
    exact ⟨dflt, rfl⟩

theorem guardedGetD_ok {d : Dict} (k k2 : String) (dflt : JVal)
    (hg : guardedObj d k = true) : ∃ v, guardedGetD d k k2 dflt = .ok v := by
  unfold guardedGetD
  by_cases ht : (dget d k).truthy = true
  · obtain ⟨fs, hfs, _⟩ := guarded_obj hg ht
    rw [if_pos ht, hfs]
    exact ⟨dgetD fs k2 dflt, rfl⟩
  · rw [if_neg ht]
    exact ⟨dflt, rfl⟩

theorem issueRowOf_safe {i : Dict} (h : archiveIssueSafe i = true) :
    ∃ r, Archive.issueRowOf i = .ok r := by
  unfold archiveIssueSafe at h
  simp only [Bool.and_eq_true] at h
  obtain ⟨⟨⟨⟨hu, ha⟩, hc⟩, hr⟩, hs⟩ := h
  obtain ⟨uv, huv⟩ := userSafe_mget "login" hu
  obtain ⟨av, hav⟩ := guardedGet_ok "assignee" "login" .jnull ha
  obtain ⟨cv, hcv⟩ := guardedGet_ok "closed_by" "login" .jnull hc
  obtain ⟨rv, hrv⟩ := guardedGet_ok "reactions" "total_count" (.jint 0) hr
  obtain ⟨s1, hs1⟩ := guardedGetD_ok "sub_issues_summary" "total_count" (.jint 0) hs
  obtain ⟨s2, hs2⟩ := guardedGetD_ok "sub_issues_summary" "completed_count" (.jint 0) hs
  obtain ⟨s3, hs3⟩ := guardedGetD_ok "sub_issues_summary" "percent_complete" (.jint 0) hs
  unfold Archive.issueRowOf
  rw [huv, hav, hcv, hrv, hs1, hs2, hs3]
  exact ⟨_, rfl⟩

theorem commentRowOf_safe {c : Dict} (h : archiveCommentSafe c = true) :
    ∃ r, Archive.commentRowOf c = .ok r := by
  unfold archiveCommentSafe at h
  simp only [Bool.and_eq_true] at h
  obtain ⟨hu, hr⟩ := h
  obtain ⟨uv, huv⟩ := userSafe_mget "login" hu
  obtain ⟨rv, hrv⟩ := guardedGet_ok "reactions" "total_count" (.jint 0) hr
  unfold Archive.commentRowOf
  rw [huv, hrv]
  exact ⟨_, rfl⟩

theorem timelineRowOf_safe {e : Dict} (h : archiveEventSafe e = true) :
    ∃ r, Archive.timelineRowOf e = .ok r := by
  unfold archiveEventSafe at h
  simp only [Bool.and_eq_true] at h
  obtain ⟨⟨⟨ha, hl⟩, hp⟩, hs⟩ := h
  obtain ⟨av, hav⟩ := guardedGet_ok "actor" "login" .jnull ha
  obtain ⟨lv, hlv⟩ := guardedGet_ok "label" "name" .jnull hl
  obtain ⟨p1, hp1⟩ := guardedGet_ok "pull_request" "number" .jnull hp
  obtain ⟨p2, hp2⟩ := guardedGet_ok "pull_request" "url" .jnull hp
  obtain ⟨sv, hsv⟩ := guardedGet_ok "source" "type" .jnull hs
  unfold Archive.timelineRowOf
  rw [hav, hlv, hp1, hp2, hsv]
  exact ⟨_, rfl⟩

theorem labelNames_ok {xs : List JVal} (h : xs.all JVal.isObj = true) :
    ∃ ns, HelperMod.labelNames xs = .ok ns := by
  induction xs with
  | nil => exact ⟨[], rfl⟩
  | cons x rest ih =>
    simp only [List.all_cons, Bool.and_eq_true] at h
    obtain ⟨hx, hrest⟩ := h
    obtain ⟨ns, hns⟩ := ih hrest
    cases x with
    | jobj fs =>
      refine ⟨dget fs "name" :: ns, ?_⟩
      unfold HelperMod.labelNames
      rw [hns]
      rfl
    | jnull => simp [JVal.isObj] at hx
    | jbool b => simp [JVal.isObj] at hx
    | jint n => simp [JVal.isObj] at hx
    | jstr s => simp [JVal.isObj] at hx
    | jarr ys => simp [JVal.isObj] at hx

theorem helperRowOf_safe {i : Dict} (h : helperIssueSafe i = true) :
    ∃ r, HelperMod.issueRowOf i = .ok r := by
  unfold helperIssueSafe at h
  simp only [Bool.and_eq_true] at h
  obtain ⟨⟨⟨hlab, hc⟩, hr⟩, hs⟩ := h
  have hlabels : ∃ v, HelperMod.labelsField i = .ok v := by
    unfold HelperMod.labelsField
    by_cases ht : (dget i "labels").truthy = true
    · rw [if_pos ht]
      rw [ht] at hlab
      simp only [Bool.not_true, Bool.false_or] at hlab
      cases hl : List.lookup "labels" i with
      | none =>
        rw [hl] at hlab
        cases hlab
      | some v =>
        rw [hl] at hlab
        cases v with
        | jarr xs =>
          obtain ⟨ns, hns⟩ := labelNames_ok hlab
          have hd : dgetD i "labels" (.jarr []) = .jarr xs := by
            unfold dgetD
            rw [hl]
          rw [hd]
          exact ⟨.jarr ns, by simp [hns]⟩
        | jnull => cases hlab
        | jbool b => cases hlab
        | jint n => cases hlab
        | jstr s => cases hlab
        | jobj fs => cases hlab
    · rw [if_neg ht]
      exact ⟨.jarr [], rfl⟩
  obtain ⟨lv, hlv⟩ := hlabels
  obtain ⟨cv, hcv⟩ := guardedGet_ok "closed_by" "login" .jnull hc
  obtain ⟨rv, hrv⟩ := guardedGet_ok "reactions" "total_count" .jnull hr
  obtain ⟨s1, hs1⟩ := guardedGet_ok "sub_issues_summary" "total" .jnull hs
  obtain ⟨s2, hs2⟩ := guardedGet_ok "sub_issues_summary" "completed" .jnull hs
  obtain ⟨s3, hs3⟩ := guardedGet_ok "sub_issues_summary" "percent_completed" .jnull hs
  unfold HelperMod.issueRowOf
  rw [hlv, hcv, hrv, hs1, hs2, hs3]
  exact ⟨_, rfl⟩

/-!
Absorption of item-level failures by the fan-out flows.
-/

theorem isOkB_of_ex {α : Type} {x : Except PyErr α} (h : ∃ a, x = .ok a) :
    isOkB x = true := by
  obtain ⟨a, ha⟩ := h
  rw [ha]
  rfl

theorem comments_fanout_ok (fetch : Dict → Except PyErr (List Dict))
    (issues : List Dict)
    (hready : ∀ i ∈ issues, fanoutReady i = true)
    (hsafe : ∀ i ∈ issues, ∀ cs, fetch i = .ok cs → ∀ c ∈ cs,
      archiveCommentSafe (dset c "issue_number" (dget i "number")) = true) :
    ∃ fr, Archive.fetch_many_comments_for_issues fetch issues = .ok fr := by
  cases issues with
  | nil => exact ⟨.noColumns, rfl⟩
  | cons i0 rest =>
    unfold Archive.fetch_many_comments_for_issues
    rw [submitComments_ready fetch hready]
    simp only [List.isEmpty_cons, Bool.false_eq_true, if_false]
    have hmerged : ∀ c ∈ Archive.mergeTagged
        ((i0 :: rest).map (fun i => (dget i "number", fetch i))),
        isOkB (Archive.commentRowOf c) = true := by
      intro c hc
      obtain ⟨nf, hnf, recs, hrecs, r0, hr0, hce⟩ := mergeTagged_mem hc
      obtain ⟨i, hi, hie⟩ := List.mem_map.mp hnf
      have hfetch : fetch i = .ok recs := by
        have : nf.2 = fetch i := by rw [← hie]
        rw [← this, hrecs]
      have hnum : nf.1 = dget i "number" := by rw [← hie]
      have hsafe0 := hsafe i hi recs hfetch r0 hr0
      rw [hce, hnum]
      exact isOkB_of_ex (commentRowOf_safe hsafe0)
    show ∃ fr, Archive.comments_to_dataframe _ = .ok fr
    unfold Archive.comments_to_dataframe
    by_cases hemp : (Archive.mergeTagged
        ((i0 :: rest).map (fun i => (dget i "number", fetch i)))).isEmpty = true
    · rw [if_pos hemp]
      exact ⟨.noColumns, rfl⟩
    · rw [if_neg hemp]
      obtain ⟨rs, hrs⟩ := buildRows_isOk hmerged
      rw [hrs]
      exact ⟨.table rs, rfl⟩

theorem timelines_fanout_ok (fetch : Dict → Except PyErr (List Dict))
    (issues : List Dict)
    (hready : ∀ i ∈ issues, fanoutReady i = true)
    (hsafe : ∀ i ∈ issues, ∀ es, fetch i = .ok es → ∀ e ∈ es,
      archiveEventSafe (dset e "issue_number" (dget i "number")) = true) :
    ∃ fr, Archive.fetch_many_timelines_for_issues fetch issues = .ok fr := by
  cases issues with
  | nil => exact ⟨.noColumns, rfl⟩
  | cons i0 rest =>
    unfold Archive.fetch_many_timelines_for_issues
    rw [submitTimelines_ready fetch hready]
    simp only [List.isEmpty_cons, Bool.false_eq_true, if_false]
    have hmerged : ∀ e ∈ Archive.mergeTagged
        ((i0 :: rest).map (fun i => (dget i "number", fetch i))),
        isOkB (Archive.timelineRowOf e) = true := by
      intro e he
      obtain ⟨nf, hnf, recs, hrecs, r0, hr0, hee⟩ := mergeTagged_mem he
      obtain ⟨i, hi, hie⟩ := List.mem_map.mp hnf
      have hfetch : fetch i = .ok recs := by
        have : nf.2 = fetch i := by rw [← hie]
        rw [← this, hrecs]
      have hnum : nf.1 = dget i "number" := by rw [← hie]
      have hsafe0 := hsafe i hi recs hfetch r0 hr0
      rw [hee, hnum]
      exact isOkB_of_ex (timelineRowOf_safe hsafe0)
    show ∃ fr, Archive.timeline_to_dataframe _ = .ok fr
    unfold Archive.timeline_to_dataframe
    by_cases hemp : (Archive.mergeTagged
        ((i0 :: rest).map (fun i => (dget i "number", fetch i)))).isEmpty = true
    · rw [if_pos hemp]
      exact ⟨.noColumns, rfl⟩
    · rw [if_neg hemp]
      obtain ⟨rs, hrs⟩ := buildRows_isOk hmerged
      rw [hrs]
      exact ⟨.table rs, rfl⟩

/-!
Effect of a single failing per-item fetch on the merged comment
collection.
-/

theorem mergeTagged_fail_filter (fetch fetch' : Dict → Except PyErr (List Dict))
    (X : Dict) (e : PyErr) (hfail : fetch X = .error e)
    (hagree : ∀ y, y ≠ X → fetch y = fetch' y) :
    ∀ (issues : List Dict),
      (∀ y ∈ issues, dget y "number" = dget X "number" → y = X) →
      Archive.mergeTagged (issues.map (fun i => (dget i "number", fetch i))) =
        (Archive.mergeTagged (issues.map (fun i => (dget i "number", fetch' i)))).filter
          (fun c => !(decide (dget c "issue_number" = dget X "number"))) := by
  intro issues
  induction issues with
  | nil => intro _; rfl
  | cons i rest ih =>
    intro huniq
    have ihrest := ih (fun y hy => huniq y (List.mem_cons_of_mem _ hy))
    simp only [List.map_cons]
    by_cases hiX : i = X
    · rw [hiX, hfail]
      cases hfi : fetch' X with
      | error e2 =>
        show Archive.mergeTagged (rest.map (fun i => (dget i "number", fetch i))) =
          (Archive.mergeTagged (rest.map (fun i => (dget i "number", fetch' i)))).filter
            (fun c => !(decide (dget c "issue_number" = dget X "number")))
        exact ihrest
      | ok cs =>
        have hdrop : (cs.map (fun r => dset r "issue_number" (dget X "number"))).filter
            (fun c => !(decide (dget c "issue_number" = dget X "number"))) = [] := by
          rw [List.filter_eq_nil_iff]
          intro a ha
          obtain ⟨r0, _, hr0⟩ := List.mem_map.mp ha
          rw [← hr0, dget_dset_self]
          simp
        show Archive.mergeTagged (rest.map (fun i => (dget i "number", fetch i))) =
          (cs.map (fun r => dset r "issue_number" (dget X "number")) ++
            Archive.mergeTagged (rest.map (fun i => (dget i "number", fetch' i)))).filter
            (fun c => !(decide (dget c "issue_number" = dget X "number")))
        rw [List.filter_append, hdrop]
        simpa using ihrest
    · have hnum : dget i "number" ≠ dget X "number" := by
        intro hh
        exact hiX (huniq i (List.mem_cons_self _ _) hh)
      rw [hagree i hiX]
      cases hfi : fetch' i with
      | error e2 =>
        show Archive.mergeTagged (rest.map (fun i => (dget i "number", fetch i))) =
          (Archive.mergeTagged (rest.map (fun i => (dget i "number", fetch' i)))).filter
            (fun c => !(decide (dget c "issue_number" = dget X "number")))
        exact ihrest
      | ok cs =>
        have hkeep : (cs.map (fun r => dset r "issue_number" (dget i "number"))).filter
            (fun c => !(decide (dget c "issue_number" = dget X "number"))) =
            cs.map (fun r => dset r "issue_number" (dget i "number")) := by
          rw [List.filter_eq_self]
          intro a ha
          obtain ⟨r0, _, hr0⟩ := List.mem_map.mp ha
          rw [← hr0, dget_dset_self]
          simpa using hnum
        show cs.map (fun r => dset r "issue_number" (dget i "number")) ++
            Archive.mergeTagged (rest.map (fun i => (dget i "number", fetch i))) =
          (cs.map (fun r => dset r "issue_number" (dget i "number")) ++
            Archive.mergeTagged (rest.map (fun i => (dget i "number", fetch' i)))).filter
            (fun c => !(decide (dget c "issue_number" = dget X "number")))
        rw [List.filter_append, hkeep, ihrest]

theorem comments_df_filter {l : List Dict} {fr : Frame Archive.CommentRow}
    (xnum : JVal) (h : Archive.comments_to_dataframe l = .ok fr) :
    ∃ fr2, Archive.comments_to_dataframe
        (l.filter (fun c => !(decide (dget c "issue_number" = xnum)))) = .ok fr2 ∧
      fr2.rowsList = fr.rowsList.filter (fun r => !(decide (r.issue_number = xnum))) := by
  have hcompat : ∀ (c : Dict) (r : Archive.CommentRow), Archive.commentRowOf c = .ok r →
      (fun c => !(decide (dget c "issue_number" = xnum))) c =
      (fun r => !(decide (r.issue_number = xnum))) r := by
    intro c r hcr
    simp only [commentRowOf_number hcr]
  unfold Archive.comments_to_dataframe at h ⊢
  by_cases hemp : l.isEmpty = true
  · rw [if_pos hemp] at h
    cases h
    have hl : l = [] := List.isEmpty_iff.mp hemp
    subst hl
    exact ⟨.noColumns, by rfl, by rfl⟩
  · rw [if_neg hemp] at h
    cases hb : buildRows Archive.commentRowOf l with
    | error e => rw [hb] at h; cases h
    | ok rs =>
      rw [hb] at h
      cases h
      have hf := buildRows_filter hcompat hb
      by_cases hemp2 : (l.filter (fun c => !(decide (dget c "issue_number" = xnum)))).isEmpty = true
      · rw [if_pos hemp2]
        have hfe : l.filter (fun c => !(decide (dget c "issue_number" = xnum))) = [] :=
          List.isEmpty_iff.mp hemp2
        rw [hfe] at hf
        have : rs.filter (fun r => !(decide (r.issue_number = xnum))) = [] := by
          have h0 : buildRows Archive.commentRowOf ([] : List Dict) = .ok [] := rfl
          rw [h0] at hf
          exact (Except.ok.inj hf).symm
        refine ⟨.noColumns, rfl, ?_⟩
        rw [show (Frame.table rs).rowsList = rs from rfl, this]
        rfl
      · rw [if_neg hemp2, hf]
        exact ⟨.table (rs.filter (fun r => !(decide (r.issue_number = xnum)))), rfl, rfl⟩

/-!
Lemmas about the pagination loops.
-/

theorem bind_ok_inv {α β : Type} {x : Except PyErr α} {f : α → Except PyErr β} {b : β}
    (h : x >>= f = .ok b) : ∃ a, x = .ok a ∧ f a = .ok b := by
  cases x with
  | error e => cases h
  | ok a => exact ⟨a, rfl, h⟩

theorem bind_ok_congr {α β : Type} {x : Except PyErr α} {a : α} {f : α → Except PyErr β}
    (hx : x = .ok a) : x >>= f = f a := by
  rw [hx]
  rfl

theorem issuesLoop_fetched_le {pages : Nat → Except PyErr (List Dict)}
    {perPage limit : Nat} :
    ∀ {pl : List Nat} {collected : List Dict} {fetched : Nat} {outl : List Dict} {outn : Nat},
      Archive.issuesLoop pages perPage limit pl collected fetched = .ok (outl, outn) →
      outn ≤ fetched + pl.length := by
  intro pl
  induction pl with
  | nil =>
    intro c f outl outn h
    cases h
    simp
  | cons page rest ih =>
    intro c f outl outn h
    unfold Archive.issuesLoop at h
    split at h
    · cases h
      simp
    · obtain ⟨raw, hp, h⟩ := bind_ok_inv h
      simp only at h
      split at h
      · cases h
        simp only [List.length_cons]
        omega
      · split at h
        · cases h
          simp only [List.length_cons]
          omega
        · have := ih h
          simp only [List.length_cons]
          omega

theorem issuesLoop_halt {pages : Nat → Except PyErr (List Dict)} {perPage limit : Nat}
    {k : Nat} {raw : List Dict} (hk : pages k = .ok raw)
    (hshort : raw.length < perPage) :
    ∀ (n : Nat) {p : Nat} {collected : List Dict} {fetched : Nat} {outl : List Dict} {outn : Nat},
      p ≤ k → k < p + n →
      Archive.issuesLoop pages perPage limit (List.range' p n) collected fetched = .ok (outl, outn) →
      outn ≤ fetched + (k + 1 - p) := by
  intro n
  induction n with
  | zero =>
    intro p c f outl outn hpk hkn h
    omega
  | succ m ih =>
    intro p c f outl outn hpk hkn h
    rw [show List.range' p (m + 1) = p :: List.range' (p + 1) m from rfl] at h
    unfold Archive.issuesLoop at h
    split at h
    · cases h
      omega
    · obtain ⟨rawp, hp, h⟩ := bind_ok_inv h
      simp only at h
      by_cases hpk2 : p = k
      · subst hpk2
        rw [hk] at hp
        have hraw : raw = rawp := Except.ok.inj hp
        subst hraw
        split at h
        · cases h
          omega
        · split at h
          · cases h
            omega
          · exfalso
            have hfl : (raw.filter (fun i => !(hasKey i "pull_request"))).length ≤
                raw.length := List.length_filter_le _ _
            omega
      · have hpk3 : p < k := lt_of_le_of_ne hpk hpk2
        split at h
        · cases h
          omega
        · split at h
          · cases h
            omega
          · have := ih (p := p + 1) (by omega) (by omega) h
            omega

theorem issuesLoop_no_pr {pages : Nat → Except PyErr (List Dict)}
    {perPage limit : Nat} :
    ∀ {pl : List Nat} {collected : List Dict} {fetched : Nat} {outl : List Dict} {outn : Nat},
      (∀ i ∈ collected, hasKey i "pull_request" = false) →
      Archive.issuesLoop pages perPage limit pl collected fetched = .ok (outl, outn) →
      ∀ i ∈ outl, hasKey i "pull_request" = false := by
  intro pl
  induction pl with
  | nil =>
    intro c f outl outn hc h
    cases h
    exact hc
  | cons page rest ih =>
    intro c f outl outn hc h
    unfold Archive.issuesLoop at h
    split at h
    · cases h
      exact hc
    · obtain ⟨raw, hp, h⟩ := bind_ok_inv h
      simp only at h
      have hc2 : ∀ i ∈ c ++ raw.filter (fun i => !(hasKey i "pull_request")),
          hasKey i "pull_request" = false := by
        intro i hi
        rcases List.mem_append.mp hi with h1 | h2
        · exact hc i h1
        · have := (List.mem_filter.mp h2).2
          simpa using this
      split at h
      · cases h
        exact hc
      · split at h
        · cases h
          exact hc2
        · exact ih hc2 h

theorem v3Loop_fetched_le {pages : Nat → Except PyErr (List Dict)}
    {perPage limit : Nat} {excludePulls : Bool} :
    ∀ {pl : List Nat} {acc : List Dict} {fetched : Nat} {outl : List Dict} {outn : Nat},
      V3.v3Loop pages perPage limit excludePulls pl acc fetched = .ok (outl, outn) →
      outn ≤ fetched + pl.length := by
  intro pl
  induction pl with
  | nil =>
    intro c f outl outn h
    cases h
    simp
  | cons page rest ih =>
    intro c f outl outn h
    unfold V3.v3Loop at h
    split at h
    · cases h
      simp
    · obtain ⟨raw, hp, h⟩ := bind_ok_inv h
      simp only at h
      split at h
      · cases h
        simp only [List.length_cons]
        omega
      · split at h
        · cases h
          simp only [List.length_cons]
          omega
        · have := ih h
          simp only [List.length_cons]
          omega

theorem v3Loop_halt {pages : Nat → Except PyErr (List Dict)} {perPage limit : Nat}
    {excludePulls : Bool} {k : Nat} {raw : List Dict} (hk : pages k = .ok raw)
    (hshort : raw.length < perPage) :
    ∀ (n : Nat) {p : Nat} {acc : List Dict} {fetched : Nat} {outl : List Dict} {outn : Nat},
      p ≤ k → k < p + n →
      V3.v3Loop pages perPage limit excludePulls (List.range' p n) acc fetched = .ok (outl, outn) →
      outn ≤ fetched + (k + 1 - p) := by
  intro n
  induction n with
  | zero =>
    intro p c f outl outn hpk hkn h
    omega
  | succ m ih =>
    intro p c f outl outn hpk hkn h
    rw [show List.range' p (m + 1) = p :: List.range' (p + 1) m from rfl] at h
    unfold V3.v3Loop at h
    split at h
    · cases h
      omega
    · obtain ⟨rawp, hp, h⟩ := bind_ok_inv h
      simp only at h
      by_cases hpk2 : p = k
      · subst hpk2
        rw [hk] at hp
        have hraw : raw = rawp := Except.ok.inj hp
        subst hraw
        repeat' split at h
        all_goals try cases h
        all_goals omega
      · have hpk3 : p < k := lt_of_le_of_ne hpk hpk2
        repeat' split at h
        all_goals try (cases h; omega)
        all_goals (have hrec := ih (p := p + 1) (by omega) (by omega) h; omega)

theorem v3Loop_no_pr {pages : Nat → Except PyErr (List Dict)}
    {perPage limit : Nat} :
    ∀ {pl : List Nat} {acc : List Dict} {fetched : Nat} {outl : List Dict} {outn : Nat},
      (∀ i ∈ acc, hasKey i "pull_request" = false) →
      V3.v3Loop pages perPage limit true pl acc fetched = .ok (outl, outn) →
      ∀ i ∈ outl, hasKey i "pull_request" = false := by
  intro pl
  induction pl with
  | nil =>
    intro c f outl outn hc h
    cases h
    exact hc
  | cons page rest ih =>
    intro c f outl outn hc h
    unfold V3.v3Loop at h
    split at h
    · cases h
      exact hc
    · obtain ⟨raw, hp, h⟩ := bind_ok_inv h
      simp only [if_true] at h
      have hc2 : ∀ i ∈ c ++ raw.filter (fun i => !(hasKey i "pull_request")),
          hasKey i "pull_request" = false := by
        intro i hi
        rcases List.mem_append.mp hi with h1 | h2
        · exact hc i h1
        · have := (List.mem_filter.mp h2).2
          simpa using this
      split at h
      · cases h
        exact hc
      · split at h
        · cases h
          exact hc2
        · exact ih hc2 h

theorem issuesLoop_error_at {pages : Nat → Except PyErr (List Dict)}
    {perPage limit : Nat} {k : Nat} {e : PyErr}
    (hke : pages k = .error e) (hpp : 0 < perPage) :
    ∀ (n : Nat) (p : Nat) (collected : List Dict) (fetched : Nat),
      p ≤ k → k < p + n →
      (∀ j, p ≤ j → j < k → ∃ raw, pages j = .ok raw ∧ raw.length = perPage ∧
        ∀ i ∈ raw, hasKey i "pull_request" = false) →
      (∀ j, p ≤ j → j ≤ k → collected.length + (j - p) * perPage < limit) →
      Archive.issuesLoop pages perPage limit (List.range' p n) collected fetched =
        .error e := by
  intro n
  induction n with
  | zero =>
    intro p c f hpk hkn _ _
    omega
  | succ m ih =>
    intro p c f hpk hkn hfull hacc
    rw [show List.range' p (m + 1) = p :: List.range' (p + 1) m from rfl]
    unfold Archive.issuesLoop
    have hclen : c.length < limit := by
      have h0 := hacc p (le_refl p) hpk
      simpa using h0
    rw [if_neg (by omega : ¬ limit ≤ c.length)]
    by_cases hpk2 : p = k
    · rw [hpk2, hke]
      rfl
    · have hpk3 : p < k := lt_of_le_of_ne hpk hpk2
      obtain ⟨raw, hraw, hlen, hnopr⟩ := hfull p (le_refl p) hpk3
      have hne : ¬ raw.isEmpty = true := by
        intro hh
        rw [List.isEmpty_iff] at hh
        rw [hh] at hlen
        simp at hlen
        omega
      have hfil : raw.filter (fun i => !(hasKey i "pull_request")) = raw :=
        List.filter_eq_self.mpr (fun a ha => by simp [hnopr a ha])
      have hacc2 : ∀ j, p + 1 ≤ j → j ≤ k →
          (c ++ raw).length + (j - (p + 1)) * perPage < limit := by
        intro j hj1 hj2
        have h0 := hacc j (by omega) hj2
        have hsplit : j - p = (j - (p + 1)) + 1 := by omega
        rw [hsplit, Nat.succ_mul] at h0
        rw [List.length_append, hlen]
        generalize hq : (j - (p + 1)) * perPage = q
        rw [hq] at h0
        omega
      simp only [bind_ok_congr hraw]
      rw [if_neg hne, hfil]
      rw [if_neg (by omega : ¬ raw.length < perPage)]
      exact ih (p + 1) (c ++ raw) (f + 1) (by omega) (by omega)
        (fun j hj1 hj2 => hfull j (by omega) hj2) hacc2

theorem v3Loop_error_at {pages : Nat → Except PyErr (List Dict)}
    {perPage limit : Nat} {excl : Bool} {k : Nat} {e : PyErr}
    (hke : pages k = .error e) (hpp : 0 < perPage) :
    ∀ (n : Nat) (p : Nat) (acc : List Dict) (fetched : Nat),
      p ≤ k → k < p + n →
      (∀ j, p ≤ j → j < k → ∃ raw, pages j = .ok raw ∧ raw.length = perPage ∧
        ∀ i ∈ raw, hasKey i "pull_request" = false) →
      (∀ j, p ≤ j → j ≤ k → acc.length + (j - p) * perPage < limit) →
      V3.v3Loop pages perPage limit excl (List.range' p n) acc fetched =
        .error e := by
  intro n
  induction n with
  | zero =>
    intro p c f hpk hkn _ _
    omega
  | succ m ih =>
    intro p c f hpk hkn hfull hacc
    rw [show List.range' p (m + 1) = p :: List.range' (p + 1) m from rfl]
    unfold V3.v3Loop
    have hclen : c.length < limit := by
      have h0 := hacc p (le_refl p) hpk
      simpa using h0
    rw [if_neg (by omega : ¬ limit ≤ c.length)]
    by_cases hpk2 : p = k
    · rw [hpk2, hke]
      rfl
    · have hpk3 : p < k := lt_of_le_of_ne hpk hpk2
      obtain ⟨raw, hraw, hlen, hnopr⟩ := hfull p (le_refl p) hpk3
      have hne : ¬ raw.isEmpty = true := by
        intro hh
        rw [List.isEmpty_iff] at hh
        rw [hh] at hlen
        simp at hlen
        omega
      have hfil : raw.filter (fun i => !(hasKey i "pull_request")) = raw :=
        List.filter_eq_self.mpr (fun a ha => by simp [hnopr a ha])
      have hacc2 : ∀ j, p + 1 ≤ j → j ≤ k →
          (c ++ raw).length + (j - (p + 1)) * perPage < limit := by
        intro j hj1 hj2
        have h0 := hacc j (by omega) hj2
        have hsplit : j - p = (j - (p + 1)) + 1 := by omega
        rw [hsplit, Nat.succ_mul] at h0
        rw [List.length_append, hlen]
        generalize hq : (j - (p + 1)) * perPage = q
        rw [hq] at h0
        omega
      simp only [bind_ok_congr hraw]
      rw [if_neg hne, hfil, ite_self]
      rw [if_neg (by omega : ¬ raw.length < perPage)]
      exact ih (p + 1) (c ++ raw) (f + 1) (by omega) (by omega)
        (fun j hj1 hj2 => hfull j (by omega) hj2) hacc2

/-!
Decomposition and construction of orchestration-flow runs.
-/

theorem pipeline_ok_decomp {b : Archive.Backend} {repo : String} {limit maxPages : Nat}
    {out : Archive.PipelineResult}
    (h : Archive.fetch_closed_gh_issues b repo limit maxPages = .ok out) :
    ∃ issues n idf cdf tdf,
      Archive.fetch_many_issues b.pages limit maxPages = .ok (issues, n) ∧
      Archive.issues_to_dataframe issues = .ok idf ∧
      Archive.fetch_many_comments_for_issues b.comments issues = .ok cdf ∧
      Archive.fetch_many_timelines_for_issues b.timeline issues = .ok tdf ∧
      out.issues_df = idf ∧ out.comments_df = cdf ∧ out.timeline_df = tdf ∧
      out.writes =
        [.issuesCsv (Archive.repoSafe repo ++ "_issues.csv") idf,
         .commentsCsv (Archive.repoSafe repo ++ "_issue_comments.csv") cdf,
         .timelineCsv (Archive.repoSafe repo ++ "_issue_timeline.csv") tdf] := by
  unfold Archive.fetch_closed_gh_issues at h
  obtain ⟨p, h1, h⟩ := bind_ok_inv h
  obtain ⟨issues, n⟩ := p
  try simp only at h
  obtain ⟨idf, h2, h⟩ := bind_ok_inv h
  try simp only at h
  obtain ⟨cdf, h3, h⟩ := bind_ok_inv h
  try simp only at h
  obtain ⟨tdf, h4, h⟩ := bind_ok_inv h
  try simp only at h
  cases h
  exact ⟨issues, n, idf, cdf, tdf, h1, h2, h3, h4, rfl, rfl, rfl, rfl⟩

theorem pipeline_ok_build {b : Archive.Backend} {repo : String} {limit maxPages : Nat}
    {issues : List Dict} {n : Nat} {idf : Frame Archive.IssueRow}
    {cdf : Frame Archive.CommentRow} {tdf : Frame Archive.TimelineRow}
    (h1 : Archive.fetch_many_issues b.pages limit maxPages = .ok (issues, n))
    (h2 : Archive.issues_to_dataframe issues = .ok idf)
    (h3 : Archive.fetch_many_comments_for_issues b.comments issues = .ok cdf)
    (h4 : Archive.fetch_many_timelines_for_issues b.timeline issues = .ok tdf) :
    Archive.fetch_closed_gh_issues b repo limit maxPages = .ok
      ⟨idf, cdf, tdf,
        [.issuesCsv (Archive.repoSafe repo ++ "_issues.csv") idf,
         .commentsCsv (Archive.repoSafe repo ++ "_issue_comments.csv") cdf,
         .timelineCsv (Archive.repoSafe repo ++ "_issue_timeline.csv") tdf]⟩ := by
  unfold Archive.fetch_closed_gh_issues
  rw [bind_ok_congr h1]
  simp only [bind_ok_congr h2, bind_ok_congr h3, bind_ok_congr h4]

/-!
Derived facts used by several claims.
-/

theorem submitComments_any {f g : Dict → Except PyErr (List Dict)} :
    ∀ {issues : List Dict} {futs},
      Archive.submitComments f issues = .ok futs →
      Archive.submitComments g issues =
        .ok (issues.map (fun i => (dget i "number", g i))) := by
  intro issues
  induction issues with
  | nil => intro futs _; rfl
  | cons i rest ih =>
    intro futs h
    unfold Archive.submitComments at h ⊢
    cases htg : Archive.commentsTarget i with
    | error e => rw [htg] at h; cases h
    | ok u =>
      rw [htg] at h
      cases hnum : dixGet i "number" with
      | error e => rw [hnum] at h; cases h
      | ok num =>
        rw [hnum] at h
        cases ht : Archive.submitComments f rest with
        | error e => rw [ht] at h; cases h
        | ok tail =>
          rw [ih ht]
          simp only [List.map_cons]
          rw [dixGet_ok_eq hnum]
          rfl

theorem issues_df_numbers {issues : List Dict} {idf : Frame Archive.IssueRow}
    (h : Archive.issues_to_dataframe issues = .ok idf) (hne : issues ≠ []) :
    idf.rowsList.map Archive.IssueRow.issue_number =
      issues.map (fun i => dget i "number") := by
  unfold Archive.issues_to_dataframe at h
  rw [if_neg (by simpa [List.isEmpty_iff] using hne)] at h
  obtain ⟨rows, hb, h⟩ := bind_ok_inv h
  cases h
  exact buildRows_map_eq (fun c r hcr => issueRowOf_number hcr) hb

theorem comments_fanout_rows_sub {fetch : Dict → Except PyErr (List Dict)}
    {issues : List Dict} {cdf : Frame Archive.CommentRow}
    (h : Archive.fetch_many_comments_for_issues fetch issues = .ok cdf) :
    ∀ r ∈ cdf.rowsList, r.issue_number ∈ issues.map (fun i => dget i "number") := by
  cases issues with
  | nil =>
    unfold Archive.fetch_many_comments_for_issues at h
    cases h
    intro r hr
    cases hr
  | cons i0 rest =>
    unfold Archive.fetch_many_comments_for_issues at h
    simp only [List.isEmpty_cons, Bool.false_eq_true, if_false] at h
    obtain ⟨futs, hsub, h⟩ := bind_ok_inv h
    have hfuts := submitComments_ok hsub
    subst hfuts
    unfold Archive.comments_to_dataframe at h
    intro r hr
    by_cases hemp : (Archive.mergeTagged
        ((i0 :: rest).map (fun i => (dget i "number", fetch i)))).isEmpty = true
    · rw [if_pos hemp] at h
      cases h
      cases hr
    · rw [if_neg hemp] at h
      obtain ⟨rows, hb, h⟩ := bind_ok_inv h
      cases h
      obtain ⟨c, hcm, hcr⟩ := buildRows_mem hb r hr
      obtain ⟨nf, hnf, recs, hrecs, r0, hr0, hce⟩ := mergeTagged_mem hcm
      obtain ⟨i, hi, hie⟩ := List.mem_map.mp hnf
      have hnum : r.issue_number = nf.1 := by
        rw [commentRowOf_number hcr, hce, dget_dset_self]
      rw [hnum, ← hie]
      exact List.mem_map.mpr ⟨i, hi, rfl⟩

theorem timelines_fanout_rows_sub {fetch : Dict → Except PyErr (List Dict)}
    {issues : List Dict} {tdf : Frame Archive.TimelineRow}
    (h : Archive.fetch_many_timelines_for_issues fetch issues = .ok tdf) :
    ∀ r ∈ tdf.rowsList, r.issue_number ∈ issues.map (fun i => dget i "number") := by
  cases issues with
  | nil =>
    unfold Archive.fetch_many_timelines_for_issues at h
    cases h
    intro r hr
    cases hr
  | cons i0 rest =>
    unfold Archive.fetch_many_timelines_for_issues at h
    simp only [List.isEmpty_cons, Bool.false_eq_true, if_false] at h
    obtain ⟨futs, hsub, h⟩ := bind_ok_inv h
    have hfuts := submitTimelines_ok hsub
    subst hfuts
    unfold Archive.timeline_to_dataframe at h
    intro r hr
    by_cases hemp : (Archive.mergeTagged
        ((i0 :: rest).map (fun i => (dget i "number", fetch i)))).isEmpty = true
    · rw [if_pos hemp] at h
      cases h
      cases hr
    · rw [if_neg hemp] at h
      obtain ⟨rows, hb, h⟩ := bind_ok_inv h
      cases h
      obtain ⟨c, hcm, hcr⟩ := buildRows_mem hb r hr
      obtain ⟨nf, hnf, recs, hrecs, r0, hr0, hce⟩ := mergeTagged_mem hcm
      obtain ⟨i, hi, hie⟩ := List.mem_map.mp hnf
      have hnum : r.issue_number = nf.1 := by
        rw [timelineRowOf_number hcr, hce, dget_dset_self]
      rw [hnum, ← hie]
      exact List.mem_map.mpr ⟨i, hi, rfl⟩

/-!
Claim theorems.
-/

/-- C1: for every run of the pagination stage (`fetch_many_issues` /
`fetch_issues`) with any limit, max_pages and page responses, the returned
item list contains at most `limit` items; any excess collected from the
final page is truncated before returning. -/
theorem c1_pagination_respects_limit :
    (∀ (pages : Nat → Except PyErr (List Dict)) (limit maxPages : Nat)
        (issues : List Dict) (n : Nat),
        Archive.fetch_many_issues pages limit maxPages = .ok (issues, n) →
        issues.length ≤ limit) ∧
    (∀ (pages : Nat → Except PyErr (List Dict)) (limit : Nat) (excludePulls : Bool)
        (maxPages : Nat) (issues : List Dict) (n : Nat),
        V3.fetch_issues pages limit excludePulls maxPages = .ok (issues, n) →
        issues.length ≤ limit) := by
  constructor
  · intro pages limit maxPages issues n h
    unfold Archive.fetch_many_issues at h
    obtain ⟨p, h1, h⟩ := bind_ok_inv h
    obtain ⟨collected, fetched⟩ := p
    try simp only at h
    cases h
    exact List.length_take_le _ _
  · intro pages limit excludePulls maxPages issues n h
    unfold V3.fetch_issues at h
    obtain ⟨p, h1, h⟩ := bind_ok_inv h
    obtain ⟨acc, fetched⟩ := p
    try simp only at h
    cases h
    exact List.length_take_le _ _

/-- Witness for C1: a concrete two-issue backend, for both pagination
variants. -/
theorem c1_witness :
    Archive.fetch_many_issues demoPages 5 2 = .ok ([issueA, issueB], 1) ∧
    V3.fetch_issues demoPages 5 false 2 = .ok ([issueA, issueB], 1) ∧
    [issueA, issueB].length ≤ 5 ∧ [issueA, issueB].length ≤ 5 :=
  ⟨rfl, rfl,
    c1_pagination_respects_limit.1 demoPages 5 2 [issueA, issueB] 1 rfl,
    c1_pagination_respects_limit.2 demoPages 5 false 2 [issueA, issueB] 1 rfl⟩

/-- C2: pagination halts as soon as a page returns fewer items than the
requested page size (`min(limit, 100)`), even when max_pages has not been
reached: no page after page `k` is requested when page `k`'s response is
short.  In the scenario `limit = 5`, `max_pages = 2` with page 1 returning
3 non-PR items, exactly one page is requested and the final issue count is
3.  (The archive loop compares the post-filter count, which is at most the
raw count, so a short raw page still halts it.) -/
theorem c2_short_page_halts :
    (∀ (pages : Nat → Except PyErr (List Dict)) (limit maxPages k : Nat)
        (raw issues : List Dict) (n : Nat),
        pages k = .ok raw → raw.length < min limit 100 → 1 ≤ k →
        Archive.fetch_many_issues pages limit maxPages = .ok (issues, n) →
        n ≤ k) ∧
    (∀ (pages : Nat → Except PyErr (List Dict)) (limit : Nat) (excludePulls : Bool)
        (maxPages k : Nat) (raw issues : List Dict) (n : Nat),
        pages k = .ok raw → raw.length < min limit 100 → 1 ≤ k →
        V3.fetch_issues pages limit excludePulls maxPages = .ok (issues, n) →
        n ≤ k) ∧
    Archive.fetch_many_issues scenarioPages 5 2 =
      .ok ([scenItem 1, scenItem 2, scenItem 3], 1) ∧
    V3.fetch_issues scenarioPages 5 false 2 =
      .ok ([scenItem 1, scenItem 2, scenItem 3], 1) := by
  refine ⟨?_, ?_, rfl, rfl⟩
  · intro pages limit maxPages k raw issues n hk hshort hk1 h
    unfold Archive.fetch_many_issues at h
    obtain ⟨p, h1, h⟩ := bind_ok_inv h
    obtain ⟨collected, fetched⟩ := p
    try simp only at h
    cases h
    by_cases hkm : k ≤ maxPages
    · have := issuesLoop_halt hk hshort maxPages (p := 1) (by omega) (by omega) h1
      omega
    · have := issuesLoop_fetched_le h1
      simp only [List.length_range'] at this
      omega
  · intro pages limit excludePulls maxPages k raw issues n hk hshort hk1 h
    unfold V3.fetch_issues at h
    obtain ⟨p, h1, h⟩ := bind_ok_inv h
    obtain ⟨acc, fetched⟩ := p
    try simp only at h
    cases h
    by_cases hkm : k ≤ maxPages
    · have := v3Loop_halt hk hshort maxPages (p := 1) (by omega) (by omega) h1
      omega
    · have := v3Loop_fetched_le h1
      simp only [List.length_range'] at this
      omega

/-- Witness for C2: the scenario backend discharges the general
halting statement at page 1. -/
theorem c2_witness :
    scenarioPages 1 = .ok [scenItem 1, scenItem 2, scenItem 3] ∧
    [scenItem 1, scenItem 2, scenItem 3].length < min 5 100 ∧
    (1 : Nat) ≤ 1 :=
  ⟨rfl, by decide,
    c2_short_page_halts.1 scenarioPages 5 2 1 [scenItem 1, scenItem 2, scenItem 3]
      [scenItem 1, scenItem 2, scenItem 3] 1 rfl (by decide) (by decide) rfl⟩

/-- C3 counterexample: `fetch_issues` in fetch_gh_data_3 has
`exclude_pulls = False` by default; run with that default, an item flagged
as a pull request is returned unfiltered, so not every run of the
pagination stage filters out pull-request items. -/
theorem c3_counterexample :
    V3.fetch_issues prPages 5 false 2 = .ok ([prItem], 1) ∧
    hasKey prItem "pull_request" = true := ⟨rfl, rfl⟩

/-- C3 (amended): in the archive pagination (`fetch_many_issues`) every
run filters pull-request items, and in `fetch_issues` (fetch_gh_data_3)
every run with `exclude_pulls = True` does; with `exclude_pulls` left at
its default `False`, pull-request items are returned unfiltered. -/
theorem c3_pr_filter :
    (∀ (pages : Nat → Except PyErr (List Dict)) (limit maxPages : Nat)
        (issues : List Dict) (n : Nat),
        Archive.fetch_many_issues pages limit maxPages = .ok (issues, n) →
        ∀ i ∈ issues, hasKey i "pull_request" = false) ∧
    (∀ (pages : Nat → Except PyErr (List Dict)) (limit maxPages : Nat)
        (issues : List Dict) (n : Nat),
        V3.fetch_issues pages limit true maxPages = .ok (issues, n) →
        ∀ i ∈ issues, hasKey i "pull_request" = false) := by
  constructor
  · intro pages limit maxPages issues n h
    unfold Archive.fetch_many_issues at h
    obtain ⟨p, h1, h⟩ := bind_ok_inv h
    obtain ⟨collected, fetched⟩ := p
    try simp only at h
    cases h
    intro i hi
    exact issuesLoop_no_pr (fun x hx => absurd hx (List.not_mem_nil x)) h1 i
      (List.take_subset _ _ hi)
  · intro pages limit maxPages issues n h
    unfold V3.fetch_issues at h
    obtain ⟨p, h1, h⟩ := bind_ok_inv h
    obtain ⟨acc, fetched⟩ := p
    try simp only at h
    cases h
    intro i hi
    exact v3Loop_no_pr (fun x hx => absurd hx (List.not_mem_nil x)) h1 i
      (List.take_subset _ _ hi)

/-- Witness for C3's amended statement at the concrete two-issue
backend. -/
theorem c3_witness :
    Archive.fetch_many_issues demoPages 5 2 = .ok ([issueA, issueB], 1) ∧
    hasKey issueA "pull_request" = false :=
  ⟨rfl, c3_pr_filter.1 demoPages 5 2 [issueA, issueB] 1 rfl issueA
    (List.mem_cons_self _ _)⟩

/-- C9: the pipeline is deterministic over a fixed backend: two runs with
identical parameters produce identical row counts and identical
issue-number join-key sequences in all three output tables. -/
theorem c9_deterministic (b : Archive.Backend) (repo : String) (limit maxPages : Nat)
    (o1 o2 : Archive.PipelineResult)
    (h1 : Archive.fetch_closed_gh_issues b repo limit maxPages = .ok o1)
    (h2 : Archive.fetch_closed_gh_issues b repo limit maxPages = .ok o2) :
    o1.issues_df.rowsList.length = o2.issues_df.rowsList.length ∧
    o1.comments_df.rowsList.length = o2.comments_df.rowsList.length ∧
    o1.timeline_df.rowsList.length = o2.timeline_df.rowsList.length ∧
    o1.issues_df.rowsList.map Archive.IssueRow.issue_number =
      o2.issues_df.rowsList.map Archive.IssueRow.issue_number ∧
    o1.comments_df.rowsList.map Archive.CommentRow.issue_number =
      o2.comments_df.rowsList.map Archive.CommentRow.issue_number ∧
    o1.timeline_df.rowsList.map Archive.TimelineRow.issue_number =
      o2.timeline_df.rowsList.map Archive.TimelineRow.issue_number := by
  have ho : o1 = o2 := Except.ok.inj (h1.symm.trans h2)
  subst ho
  exact ⟨rfl, rfl, rfl, rfl, rfl, rfl⟩

/-- Witness for C9: the concrete backend run compared with itself. -/
theorem c9_witness :
    demoOut.issues_df.rowsList.length = demoOut.issues_df.rowsList.length ∧
    demoOut.comments_df.rowsList.length = demoOut.comments_df.rowsList.length ∧
    demoOut.timeline_df.rowsList.length = demoOut.timeline_df.rowsList.length ∧
    demoOut.issues_df.rowsList.map Archive.IssueRow.issue_number =
      demoOut.issues_df.rowsList.map Archive.IssueRow.issue_number ∧
    demoOut.comments_df.rowsList.map Archive.CommentRow.issue_number =
      demoOut.comments_df.rowsList.map Archive.CommentRow.issue_number ∧
    demoOut.timeline_df.rowsList.map Archive.TimelineRow.issue_number =
      demoOut.timeline_df.rowsList.map Archive.TimelineRow.issue_number :=
  c9_deterministic demoBackend "a/b" 5 2 demoOut demoOut rfl rfl

/-- C10: on empty input each normalizer returns the column-free empty
frame (`pd.DataFrame()`), whose persisted artifact has no header row,
unlike a schema-carrying frame with zero data rows. -/
theorem c10_empty_input_no_columns :
    Archive.issues_to_dataframe [] = .ok .noColumns ∧
    Archive.comments_to_dataframe [] = .ok .noColumns ∧
    Archive.timeline_to_dataframe [] = .ok .noColumns ∧
    (Frame.noColumns : Frame Archive.IssueRow).headerRows = 0 ∧
    (Frame.table ([] : List Archive.IssueRow)).headerRows = 1 :=
  ⟨rfl, rfl, rfl, rfl, rfl⟩

/-- C8: the sink derives the three artifact names by replacing each '/',
'-' and '.' of the repository identifier with '_' (the chained
single-character replaces equal the simultaneous spec-side map) and
appending the fixed suffixes `_issues`, `_issue_comments`,
`_issue_timeline` (plus the `.csv` extension); each artifact is written
with the fully assembled frame of its record kind. -/
theorem c8_sink_naming :
    (∀ repository : String, Archive.repoSafe repository = specSanitize repository) ∧
    (∀ (b : Archive.Backend) (repository : String) (limit maxPages : Nat)
        (out : Archive.PipelineResult),
        Archive.fetch_closed_gh_issues b repository limit maxPages = .ok out →
        out.writes =
          [.issuesCsv (specSanitize repository ++ "_issues" ++ ".csv") out.issues_df,
           .commentsCsv (specSanitize repository ++ "_issue_comments" ++ ".csv")
             out.comments_df,
           .timelineCsv (specSanitize repository ++ "_issue_timeline" ++ ".csv")
             out.timeline_df]) := by
  have hsan : ∀ r : String, Archive.repoSafe r = specSanitize r := by
    intro r
    unfold Archive.repoSafe specSanitize Archive.replaceChar
    apply congrArg String.mk
    simp only [List.map_map]
    apply List.map_congr_left
    intro c _
    by_cases h1 : c = '/' <;> by_cases h2 : c = '-' <;> by_cases h3 : c = '.' <;>
      simp_all
  refine ⟨hsan, ?_⟩
  intro b repository limit maxPages out h
  obtain ⟨issues, n, idf, cdf, tdf, h1, h2, h3, h4, hi, hc, ht, hw⟩ :=
    pipeline_ok_decomp h
  rw [hw, hi, hc, ht, hsan repository]
  rw [String.append_assoc, String.append_assoc, String.append_assoc]
  rfl

/-- Witness for C8 at the concrete backend. -/
theorem c8_witness :
    demoOut.writes =
      [.issuesCsv (specSanitize "a/b" ++ "_issues" ++ ".csv") demoOut.issues_df,
       .commentsCsv (specSanitize "a/b" ++ "_issue_comments" ++ ".csv")
         demoOut.comments_df,
       .timelineCsv (specSanitize "a/b" ++ "_issue_timeline" ++ ".csv")
         demoOut.timeline_df] :=
  c8_sink_naming.2 demoBackend "a/b" 5 2 demoOut rfl

/-- C4: in every successful pipeline run, the issue_number of every
comment row and of every timeline row equals the number of some issue in
the issue set collected in the same run (whose numbers are exactly the
issue-table join keys). -/
theorem c4_referential_integrity (b : Archive.Backend) (repo : String)
    (limit maxPages : Nat) (out : Archive.PipelineResult)
    (h : Archive.fetch_closed_gh_issues b repo limit maxPages = .ok out) :
    (∀ r ∈ out.comments_df.rowsList,
        r.issue_number ∈ out.issues_df.rowsList.map Archive.IssueRow.issue_number) ∧
    (∀ r ∈ out.timeline_df.rowsList,
        r.issue_number ∈ out.issues_df.rowsList.map Archive.IssueRow.issue_number) := by
  obtain ⟨issues, n, idf, cdf, tdf, h1, h2, h3, h4, hi, hc, ht, hw⟩ :=
    pipeline_ok_decomp h
  rw [hi, hc, ht]
  rcases issues with _ | ⟨i0, rest⟩
  · have hcdf : cdf = .noColumns := by
      unfold Archive.fetch_many_comments_for_issues at h3
      exact (Except.ok.inj h3).symm
    have htdf : tdf = .noColumns := by
      unfold Archive.fetch_many_timelines_for_issues at h4
      exact (Except.ok.inj h4).symm
    subst hcdf htdf
    exact ⟨fun r hr => absurd hr (List.not_mem_nil r),
      fun r hr => absurd hr (List.not_mem_nil r)⟩
  · have hnums := issues_df_numbers h2 (by simp)
    rw [hnums]
    exact ⟨comments_fanout_rows_sub h3, timelines_fanout_rows_sub h4⟩

/-- Witness for C4 at the concrete backend. -/
theorem c4_witness :
    (∀ r ∈ demoOut.comments_df.rowsList,
        r.issue_number ∈ demoOut.issues_df.rowsList.map Archive.IssueRow.issue_number) ∧
    (∀ r ∈ demoOut.timeline_df.rowsList,
        r.issue_number ∈ demoOut.issues_df.rowsList.map Archive.IssueRow.issue_number) :=
  c4_referential_integrity demoBackend "a/b" 5 2 demoOut rfl

/-- C6 counterexample: in `fetch_gh_issues` (fetch_gh_data_3) a page fetch
that exhausts its retries does not surface to the caller: the error is
raised by `fetch_issues` but the flow's `except` clause swallows it and
returns an empty DataFrame, so the run does not abort. -/
theorem c6_counterexample :
    V3.fetch_issues failPages 5 true 2 = .error "HTTPError" ∧
    V3.fetch_gh_issues failPages 5 true 2 = Frame.noColumns := ⟨rfl, rfl⟩

/-- C6 (amended): a failure of any requested page `k` (pages `1..k-1`
full of non-PR items and the limit not yet reached, so page `k` really is
requested) aborts issue collection and discards the partial item set
gathered from the earlier pages in both pipelines; in the archive
pipeline (`fetch_closed_gh_issues`) the error propagates to the caller
and aborts the run, while `fetch_gh_issues` (fetch_gh_data_3) catches it
at the flow boundary and returns an empty DataFrame instead of raising;
item-level fan-out errors never propagate past the fan-out boundary. -/
theorem c6_error_propagation :
    (∀ (b : Archive.Backend) (repo : String) (limit maxPages k : Nat) (e : PyErr),
        1 ≤ k → k ≤ maxPages → b.pages k = .error e →
        (∀ j, 1 ≤ j → j < k → ∃ raw, b.pages j = .ok raw ∧
          raw.length = min limit 100 ∧ ∀ i ∈ raw, hasKey i "pull_request" = false) →
        (∀ j, 1 ≤ j → j ≤ k → (j - 1) * min limit 100 < limit) →
        Archive.fetch_closed_gh_issues b repo limit maxPages = .error e) ∧
    (∀ (pages : Nat → Except PyErr (List Dict)) (limit : Nat) (excl : Bool)
        (maxPages k : Nat) (e : PyErr),
        1 ≤ k → k ≤ maxPages → pages k = .error e →
        (∀ j, 1 ≤ j → j < k → ∃ raw, pages j = .ok raw ∧
          raw.length = min limit 100 ∧ ∀ i ∈ raw, hasKey i "pull_request" = false) →
        (∀ j, 1 ≤ j → j ≤ k → (j - 1) * min limit 100 < limit) →
        V3.fetch_issues pages limit excl maxPages = .error e ∧
        V3.fetch_gh_issues pages limit excl maxPages = Frame.noColumns) ∧
    (∀ (fetch : Dict → Except PyErr (List Dict)) (issues : List Dict),
        (∀ i ∈ issues, fanoutReady i = true) →
        (∀ i ∈ issues, ∀ cs, fetch i = .ok cs → ∀ c ∈ cs,
          archiveCommentSafe (dset c "issue_number" (dget i "number")) = true) →
        isOkB (Archive.fetch_many_comments_for_issues fetch issues) = true) ∧
    (∀ (fetch : Dict → Except PyErr (List Dict)) (issues : List Dict),
        (∀ i ∈ issues, fanoutReady i = true) →
        (∀ i ∈ issues, ∀ es, fetch i = .ok es → ∀ ev ∈ es,
          archiveEventSafe (dset ev "issue_number" (dget i "number")) = true) →
        isOkB (Archive.fetch_many_timelines_for_issues fetch issues) = true) := by
  refine ⟨?_, ?_, ?_, ?_⟩
  · intro b repo limit maxPages k e hk1 hkm hke hfull hacc
    have hpp : 0 < min limit 100 := by
      have h0 := hacc 1 (le_refl 1) hk1
      simp at h0
      omega
    have hloop : Archive.issuesLoop b.pages (min limit 100) limit
        (List.range' 1 maxPages) [] 0 = .error e :=
      issuesLoop_error_at hke hpp maxPages 1 [] 0 hk1 (by omega) hfull
        (fun j hj1 hj2 => by simpa using hacc j hj1 hj2)
    unfold Archive.fetch_closed_gh_issues Archive.fetch_many_issues
    rw [hloop]
    rfl
  · intro pages limit excl maxPages k e hk1 hkm hke hfull hacc
    have hpp : 0 < min limit 100 := by
      have h0 := hacc 1 (le_refl 1) hk1
      simp at h0
      omega
    have hloop : V3.v3Loop pages (min limit 100) limit excl
        (List.range' 1 maxPages) [] 0 = .error e :=
      v3Loop_error_at hke hpp maxPages 1 [] 0 hk1 (by omega) hfull
        (fun j hj1 hj2 => by simpa using hacc j hj1 hj2)
    have hfi : V3.fetch_issues pages limit excl maxPages = .error e := by
      unfold V3.fetch_issues
      rw [hloop]
      rfl
    refine ⟨hfi, ?_⟩
    unfold V3.fetch_gh_issues
    rw [hfi]
    rfl
  · intro fetch issues hready hsafe
    exact isOkB_of_ex (comments_fanout_ok fetch issues hready hsafe)
  · intro fetch issues hready hsafe
    exact isOkB_of_ex (timelines_fanout_ok fetch issues hready hsafe)

/-- Witness for C6's amended statement: page 1 delivers a full page of
100 items and page 2 fails after retries, so both pipelines abort issue
collection at page 2 and the 100 already-collected items are discarded
(the archive run errors, the v3 flow returns the empty frame); an
always-failing per-item fetch is fully absorbed by both fan-outs. -/
theorem c6_witness :
    Archive.fetch_closed_gh_issues lateFailBackend "a/b" 150 3 = .error "HTTPError" ∧
    V3.fetch_issues lateFailPages 150 true 3 = .error "HTTPError" ∧
    V3.fetch_gh_issues lateFailPages 150 true 3 = Frame.noColumns ∧
    isOkB (Archive.fetch_many_comments_for_issues fetchFail [issueA, issueB]) = true ∧
    isOkB (Archive.fetch_many_timelines_for_issues fetchFail [issueA, issueB]) = true := by
  have hfull2 : ∀ j, 1 ≤ j → j < 2 → ∃ raw, lateFailPages j = .ok raw ∧
      raw.length = min 150 100 ∧ ∀ i ∈ raw, hasKey i "pull_request" = false := by
    intro j hj1 hj2
    have hj : j = 1 := by omega
    subst hj
    exact ⟨fullPage, rfl, by decide, by decide⟩
  have hacc2 : ∀ j, 1 ≤ j → j ≤ 2 → (j - 1) * min 150 100 < 150 := by
    intro j hj1 hj2
    have hj : j = 1 ∨ j = 2 := by omega
    rcases hj with rfl | rfl
    · decide
    · decide
  have h1 := c6_error_propagation.1 lateFailBackend "a/b" 150 3 2 "HTTPError"
    (by decide) (by decide) rfl hfull2 hacc2
  have h2 := c6_error_propagation.2.1 lateFailPages 150 true 3 2 "HTTPError"
    (by decide) (by decide) rfl hfull2 hacc2
  have h3 := c6_error_propagation.2.2.1 fetchFail [issueA, issueB] (by decide)
    (fun i hi cs hcs => by cases hcs)
  have h4 := c6_error_propagation.2.2.2 fetchFail [issueA, issueB] (by decide)
    (fun i hi es hes => by cases hes)
  exact ⟨h1, h2.1, h2.2, h3, h4⟩

/-- C7 counterexample: the archive normalizer is not total on items whose
optional fields are null: with `number` present but `user` stored as null,
`i.get("user", \x7b\x7d).get("login")` raises AttributeError.  Moreover an item
whose `number` is absent is not skipped: it yields a row (with a null join
key) and no failure is counted. -/
theorem c7_counterexample :
    Archive.issues_to_dataframe [[("number", .jint 1), ("user", .jnull)]] =
      .error "AttributeError" ∧
    (∃ rows, Archive.issues_to_dataframe [[("title", .jstr "t")]] =
        .ok (.table rows) ∧ rows.length = 1) :=
  ⟨rfl, _, rfl, rfl⟩

/-- C7 (amended): the normalizers apply the documented defaults and never
fail when each raw item satisfies the per-variant safety condition:
optional fields may be absent, null or falsy everywhere, except that the
archive issue/comment normalizers additionally require a present `user` to
be an object (null `user` raises), and truthiness-guarded fields must be
objects when truthy; the helper-module variant tolerates null `user` and
`assignee` outright.  Records missing `number` are not skipped: every
input item yields exactly one row, whose `issue_number` is the item's
`number` value (null when absent), and no failure is counted. -/
theorem c7_normalizer_totality :
    (∀ issues : List Dict, (∀ i ∈ issues, archiveIssueSafe i = true) →
        ∃ fr, Archive.issues_to_dataframe issues = .ok fr ∧
          fr.rowsList.length = issues.length ∧
          fr.rowsList.map Archive.IssueRow.issue_number =
            issues.map (fun i => dget i "number")) ∧
    (∀ comments : List Dict, (∀ c ∈ comments, archiveCommentSafe c = true) →
        ∃ fr, Archive.comments_to_dataframe comments = .ok fr ∧
          fr.rowsList.length = comments.length) ∧
    (∀ events : List Dict, (∀ e ∈ events, archiveEventSafe e = true) →
        ∃ fr, Archive.timeline_to_dataframe events = .ok fr ∧
          fr.rowsList.length = events.length) ∧
    (∀ i : Dict, helperIssueSafe i = true → isOkB (HelperMod.issueRowOf i) = true) := by
  refine ⟨?_, ?_, ?_, ?_⟩
  · intro issues hsafe
    rcases issues with _ | ⟨i0, rest⟩
    · exact ⟨.noColumns, rfl, rfl, rfl⟩
    · unfold Archive.issues_to_dataframe
      obtain ⟨rows, hrows⟩ := buildRows_isOk
        (fun i hi => isOkB_of_ex (issueRowOf_safe (hsafe i hi)))
      rw [hrows]
      refine ⟨.table rows, by rfl, ?_, ?_⟩
      · exact buildRows_length hrows
      · exact buildRows_map_eq (fun c r hcr => issueRowOf_number hcr) hrows
  · intro comments hsafe
    rcases comments with _ | ⟨c0, rest⟩
    · exact ⟨.noColumns, rfl, rfl⟩
    · unfold Archive.comments_to_dataframe
      obtain ⟨rows, hrows⟩ := buildRows_isOk
        (fun c hc => isOkB_of_ex (commentRowOf_safe (hsafe c hc)))
      rw [hrows]
      exact ⟨.table rows, by rfl, buildRows_length hrows⟩
  · intro events hsafe
    rcases events with _ | ⟨e0, rest⟩
    · exact ⟨.noColumns, rfl, rfl⟩
    · unfold Archive.timeline_to_dataframe
      obtain ⟨rows, hrows⟩ := buildRows_isOk
        (fun ev hev => isOkB_of_ex (timelineRowOf_safe (hsafe ev hev)))
      rw [hrows]
      exact ⟨.table rows, by rfl, buildRows_length hrows⟩
  · intro i hsafe
    exact isOkB_of_ex (helperRowOf_safe hsafe)

/-- Witness for C7's amended statement: an item with every optional class
of field exercised (object user, null assignee, absent closed_by), a null
user for the helper variant, and analogous comment and timeline inputs. -/
theorem c7_witness :
    (∃ fr, Archive.issues_to_dataframe
        [[("number", .jint 7), ("user", .jobj [("login", .jstr "u")]),
          ("assignee", .jnull)]] = .ok fr ∧
        fr.rowsList.length = 1 ∧
        fr.rowsList.map Archive.IssueRow.issue_number = [JVal.jint 7]) ∧
    (∃ fr, Archive.comments_to_dataframe [[("id", .jint 3), ("reactions", .jnull)]] =
        .ok fr ∧ fr.rowsList.length = 1) ∧
    (∃ fr, Archive.timeline_to_dataframe [[("event", .jstr "closed"),
        ("actor", .jnull)]] = .ok fr ∧ fr.rowsList.length = 1) ∧
    isOkB (HelperMod.issueRowOf [("number", .jint 7), ("user", .jnull),
      ("labels", .jarr [.jobj [("name", .jstr "bug")]])]) = true :=
  ⟨c7_normalizer_totality.1 _ (by decide),
    c7_normalizer_totality.2.1 _ (by decide),
    c7_normalizer_totality.2.2.1 _ (by decide),
    c7_normalizer_totality.2.2.2 _ (by decide)⟩

/-- C5: when the per-item comment fetch for issue X fails after exhausting
retries while the backend otherwise agrees with an all-success run, the
fan-out does not raise: the full run completes, the issues table is
unchanged and still contains X's number, the comments table has zero rows
for X, and the other issues' comment rows are exactly those of the
all-success run. -/
theorem c5_item_failure_isolated (b b2 : Archive.Backend) (repo : String)
    (limit maxPages : Nat) (X : Dict) (e : PyErr) (out' : Archive.PipelineResult)
    (issues : List Dict) (n : Nat)
    (hpages : b.pages = b2.pages)
    (htl : b.timeline = b2.timeline)
    (hrun2 : Archive.fetch_closed_gh_issues b2 repo limit maxPages = .ok out')
    (hiss : Archive.fetch_many_issues b.pages limit maxPages = .ok (issues, n))
    (hX : X ∈ issues)
    (hfail : b.comments X = .error e)
    (hagree : ∀ y, y ≠ X → b.comments y = b2.comments y)
    (huniq : ∀ y ∈ issues, dget y "number" = dget X "number" → y = X) :
    ∃ out, Archive.fetch_closed_gh_issues b repo limit maxPages = .ok out ∧
      out.issues_df = out'.issues_df ∧
      dget X "number" ∈ out.issues_df.rowsList.map Archive.IssueRow.issue_number ∧
      (∀ r ∈ out.comments_df.rowsList, r.issue_number ≠ dget X "number") ∧
      out.comments_df.rowsList = out'.comments_df.rowsList.filter
        (fun r => !(decide (r.issue_number = dget X "number"))) ∧
      out.timeline_df = out'.timeline_df := by
  obtain ⟨issues2, n2, idf, cdf, tdf, h1, h2, h3, h4, hi, hc, ht, hw⟩ :=
    pipeline_ok_decomp hrun2
  rw [← hpages] at h1
  have hpair : ((issues, n) : List Dict × Nat) = (issues2, n2) :=
    Except.ok.inj (hiss.symm.trans h1)
  injection hpair with hiseq hneq
  subst hiseq
  subst hneq
  have hne : issues ≠ [] := by
    intro hnil
    rw [hnil] at hX
    exact absurd hX (List.not_mem_nil X)
  have hempty : ¬ issues.isEmpty = true := by
    simpa [List.isEmpty_iff] using hne
  -- decompose the all-success comments fan-out
  unfold Archive.fetch_many_comments_for_issues at h3
  rw [if_neg hempty] at h3
  obtain ⟨futs, hsub, hdf⟩ := bind_ok_inv h3
  have hfuts := submitComments_ok hsub
  subst hfuts
  -- the failing run's merged collection is the filtered one
  have hmerge := mergeTagged_fail_filter b.comments b2.comments X e hfail hagree
    issues huniq
  obtain ⟨fr2, hfr2, hrows2⟩ := comments_df_filter (dget X "number") hdf
  have hsubB := submitComments_any (g := b.comments) hsub
  have hfanB : Archive.fetch_many_comments_for_issues b.comments issues = .ok fr2 := by
    unfold Archive.fetch_many_comments_for_issues
    rw [if_neg hempty]
    rw [bind_ok_congr hsubB]
    show Archive.comments_to_dataframe
      (Archive.mergeTagged (issues.map (fun i => (dget i "number", b.comments i)))) =
      .ok fr2
    rw [hmerge]
    exact hfr2
  have htlB : Archive.fetch_many_timelines_for_issues b.timeline issues = .ok tdf := by
    rw [htl]
    exact h4
  refine ⟨_, pipeline_ok_build hiss h2 hfanB htlB, ?_, ?_, ?_, ?_, ?_⟩
  · rw [hi]
  · have hnums := issues_df_numbers h2 hne
    show dget X "number" ∈ idf.rowsList.map Archive.IssueRow.issue_number
    rw [hnums]
    exact List.mem_map.mpr ⟨X, hX, rfl⟩
  · intro r hr
    have hr2 : r ∈ cdf.rowsList.filter
        (fun r => !(decide (r.issue_number = dget X "number"))) := by
      rw [← hrows2]
      exact hr
    have := (List.mem_filter.mp hr2).2
    simpa using this
  · rw [hc]
    exact hrows2
  · rw [ht]

/-- Witness for C5: the comments endpoint of `issueA` fails with HTTP 500
while everything else matches the all-success backend. -/
theorem c5_witness :
    ∃ out, Archive.fetch_closed_gh_issues demoBackendFail "a/b" 5 2 = .ok out ∧
      out.issues_df = demoOut.issues_df ∧
      dget issueA "number" ∈ out.issues_df.rowsList.map Archive.IssueRow.issue_number ∧
      (∀ r ∈ out.comments_df.rowsList, r.issue_number ≠ dget issueA "number") ∧
      out.comments_df.rowsList = demoOut.comments_df.rowsList.filter
        (fun r => !(decide (r.issue_number = dget issueA "number"))) ∧
      out.timeline_df = demoOut.timeline_df :=
  c5_item_failure_isolated demoBackendFail demoBackend "a/b" 5 2 issueA "HTTP 500"
    demoOut [issueA, issueB] 1 rfl rfl rfl rfl (by decide) rfl
    (by intro y hy; simp [demoBackendFail, hy]) (by decide)

end GhFetch
